import Mathlib

/-!
Shallow embedding of the billing module of the Billing-web-app repository
(`src/routes/billing.py`) together with the relevant parts of its SQLite
schema (`src/database.py`), and proofs about the bill lifecycle
(create / preview-update / commit-update / cancel / delete), inventory
reconciliation, identifier allocation and tax splitting.

Monetary amounts (SQLite `REAL`) are modelled as rationals, quantities as
integers.  Each operation of `billing.py` is translated into a pure function
on an explicit database state.
-/

/-- Value of an ASCII decimal digit, `none` for any other character. -/
def digitVal? (c : Char) : Option Nat :=
  if '0' ≤ c ∧ c ≤ '9' then some (c.toNat - '0'.toNat) else none

/-- Accumulator pass over a digit string; fails on the first non-digit. -/
def parseDigitsAux : List Char → Nat → Option Nat
  | [], acc => some acc
  | c :: cs, acc =>
    match digitVal? c with
    | some d => parseDigitsAux cs (acc * 10 + d)
    | none => none

/-- Parse a non-empty, all-digit character list as a natural number. -/
def parseDigits : List Char → Option Nat
  | [] => none
  | c :: cs => parseDigitsAux (c :: cs) 0

/-- Python's `int(s)` as used by `billing.py` (`int(last_bill['bill_id'][2:])`)
and SQLite's text-to-INTEGER coercion: an optional sign followed by digits. -/
def intLit? (s : String) : Option Int :=
  match s.data with
  | [] => none
  | c :: cs =>
    if c = '-' then (parseDigits cs).map (fun n => -(n : Int))
    else if c = '+' then (parseDigits cs).map (fun n => (n : Int))
    else (parseDigits (c :: cs)).map (fun n => (n : Int))

/-- Fuel-driven digit expansion (structural recursion so that the kernel can
evaluate it; the fuel is an upper bound on the rendered number). -/
def natDecimalAux : Nat → Nat → List Char
  | 0, n => [Char.ofNat ('0'.toNat + n % 10)]
  | fuel + 1, n =>
    if n < 10 then [Char.ofNat ('0'.toNat + n)]
    else natDecimalAux fuel (n / 10) ++ [Char.ofNat ('0'.toNat + n % 10)]

/-- Decimal rendering of a natural number (Python `str` of a nonnegative int,
as used by the `f'ST{next_num}'` format string in `create`). -/
def natDecimal (n : Nat) : List Char := natDecimalAux n n

/-- Decimal rendering of an integer (Python `str(int)`). -/
def intRepr (k : Int) : String :=
  if k < 0 then ⟨'-' :: natDecimal k.natAbs⟩ else ⟨natDecimal k.toNat⟩

/-- Python string slicing `s[2:]` (character based). -/
def dropChars (s : String) (n : Nat) : String := ⟨s.data.drop n⟩

/-- Python-style whitespace test for `strip()`. -/
def isPySpace (c : Char) : Bool :=
  c = ' ' ∨ c = '\t' ∨ c = '\n' ∨ c = '\r'

/-- Strip leading and trailing whitespace from a character list. -/
def trimChars (l : List Char) : List Char :=
  ((l.dropWhile isPySpace).reverse.dropWhile isPySpace).reverse

/-- Python's `str.strip()` as used on posted identifiers. -/
def pyStrip (s : String) : String := ⟨trimChars s.data⟩

/-- A value stored in the INTEGER-affinity `billing_items.bill_id` column
(declared `bill_id INTEGER NOT NULL` in `src/database.py`): text that parses
as an integer literal is stored — and compared — as that integer, anything
else as text. -/
inductive ColVal where
  | int (n : Int)
  | text (s : String)
deriving DecidableEq

/-- Canonical stored form of a string written to an INTEGER-affinity column. -/
def canonical (s : String) : ColVal :=
  match intLit? s with
  | some n => .int n
  | none => .text s

/-- A row of the `inventory` table (the columns read by `billing.py`). -/
structure Product where
  id : Nat
  product_id : String
  product_name : String
  quantity : Int
  unit_price : Rat
  gst_percentage : Rat
deriving DecidableEq

/-- One element of the `items_data` JSON list posted to `create`/`update`.
The `cgst`/`sgst`/`igst` fields model `item.get('cgst', 0)` etc. with the
default already applied. -/
structure ItemInput where
  product_id : Nat
  product_name : String
  quantity : Int
  unit_price : Rat
  gst_percentage : Rat
  subtotal : Rat
  gst_amount : Rat
  cgst : Rat
  sgst : Rat
  igst : Rat
  total : Rat
deriving DecidableEq

/-- A row of the `billing_items` table. -/
structure ItemRow where
  id : Nat
  bill_id : ColVal
  product_id : Nat
  product_name : String
  quantity : Int
  unit_price : Rat
  gst_percentage : Rat
  gst_amount : Rat
  cgst : Rat
  sgst : Rat
  igst : Rat
  total : Rat
deriving DecidableEq

/-- A row of the `billing` table (header).  `customer_id` and `bill_date`
are kept as the posted form strings; `""` models a missing field. -/
structure BillRow where
  id : Nat
  bill_id : String
  customer_id : String
  bill_date : String
  subtotal : Rat
  gst_amount : Rat
  total_amount : Rat
  payment_status : String
  notes : String
deriving DecidableEq

/-- The database state: the three tables touched by `billing.py` plus the
AUTOINCREMENT counters of `billing.id` and `billing_items.id`. -/
structure DB where
  billing : List BillRow
  billing_items : List ItemRow
  inventory : List Product
  nextBillKey : Nat
  nextItemKey : Nat
deriving DecidableEq

/-- `SELECT ... FROM inventory WHERE id = ?` (first match). -/
def findP (inv : List Product) (pid : Nat) : Option Product :=
  inv.find? (fun p => p.id == pid)

/-- Available quantity of a product in an inventory list, `0` when the
product is absent (mirroring `current_inv['quantity'] if current_inv else 0`
on line 645 of `billing.py`). -/
def availOf (inv : List Product) (pid : Nat) : Int :=
  match findP inv pid with
  | some p => p.quantity
  | none => 0

/-- Available quantity of a product in the database. -/
def availQty (db : DB) (pid : Nat) : Int := availOf db.inventory pid

/-- `UPDATE inventory SET quantity = quantity + d WHERE id = ?`
(no-op when the product id does not resolve). -/
def adjustQty (inv : List Product) (pid : Nat) (d : Int) : List Product :=
  inv.map (fun p => if p.id = pid then { p with quantity := p.quantity + d } else p)

/-- Restore the quantities of a list of line-item rows into the inventory
(the per-row `quantity = quantity + ?` loop of `cancel_bills`, `delete`
and the confirmed `update`). -/
def restoreItems (inv : List Product) (rows : List ItemRow) : List Product :=
  rows.foldl (fun acc r => adjustQty acc r.product_id r.quantity) inv

/-- Deduct the quantities of a list of posted items from the inventory
(the per-item `quantity = quantity - ?` loop of `create` and `update`). -/
def deductInputs (inv : List Product) (items : List ItemInput) : List Product :=
  items.foldl (fun acc it => adjustQty acc it.product_id (-it.quantity)) inv

/-- One step of the Python dict-based grouping: add quantity `q` for product
`p`, summing with an existing entry or appending a new one. -/
def addQty : List (Nat × Int) → Nat → Int → List (Nat × Int)
  | [], p, q => [(p, q)]
  | e :: rest, p, q =>
    if e.1 = p then (e.1, e.2 + q) :: rest else e :: addQty rest p q

/-- Group (product, quantity) pairs in iteration order, summing per product
(the `product_quantities` dict built in `create` and `update`). -/
def groupPairs (l : List (Nat × Int)) : List (Nat × Int) :=
  l.foldl (fun acc e => addQty acc e.1 e.2) []

/-- Grouped demand of a posted item list. -/
def groupInputs (items : List ItemInput) : List (Nat × Int) :=
  groupPairs (items.map (fun it => (it.product_id, it.quantity)))

/-- Grouped quantities of stored line-item rows. -/
def groupRows (rows : List ItemRow) : List (Nat × Int) :=
  groupPairs (rows.map (fun r => (r.product_id, r.quantity)))

/-- Quantity recorded for product `p` in a grouped list (`0` when absent). -/
def lookupQty (g : List (Nat × Int)) (p : Nat) : Int :=
  match g.find? (fun e => e.1 == p) with
  | some e => e.2
  | none => 0

/-- Errors raised by the per-product stock validation loop. -/
inductive StockErr where
  | productNotFound (pid : Nat)
  | insufficientStock (pid : Nat) (requested available : Int)
deriving DecidableEq

/-- The per-product stock validation loop of `create` (lines 144-173) and of
the confirmed `update` (lines 718-739): report the first product that is
missing or whose grouped demand exceeds its available quantity. -/
def checkStock (inv : List Product) : List (Nat × Int) → Option StockErr
  | [] => none
  | e :: rest =>
    match findP inv e.1 with
    | none => some (.productNotFound e.1)
    | some prod =>
      if prod.quantity < e.2 then some (.insufficientStock e.1 e.2 prod.quantity)
      else checkStock inv rest

/-- `SELECT bill_id FROM billing ORDER BY id DESC LIMIT 1`: the row with the
largest internal key. -/
def lastBill (db : DB) : Option BillRow :=
  db.billing.foldl
    (fun acc b =>
      match acc with
      | none => some b
      | some a => if a.id ≤ b.id then some b else some a)
    none

/-- Numeric suffix chosen for an auto-generated identifier
(`billing.py` lines 68-79): one more than the parsed suffix of the last
issued identifier, `1` on absence or parse failure. -/
def nextAutoNum (db : DB) : Int :=
  match lastBill db with
  | some b =>
    if b.bill_id ≠ "" then
      match intLit? (dropChars b.bill_id 2) with
      | some n => n + 1
      | none => 1
    else 1
  | none => 1

/-- The auto-generated bill identifier `f'ST{next_num}'`. -/
def nextAutoBillId (db : DB) : String := "ST" ++ intRepr (nextAutoNum db)

/-- The POST form data of `create`. -/
structure CreateReq where
  bill_id : String
  bill_id_mode : String
  customer_id : String
  bill_date : String
  payment_status : String
  notes : String
  items : List ItemInput
deriving DecidableEq

/-- Outcome of `create`.  `integrityErr` models the uncaught
`sqlite3.IntegrityError` raised by the `billing.bill_id TEXT UNIQUE` schema
constraint (`src/database.py` line 68) when the header insert collides: the
transaction is never committed, so the stored state is unchanged. -/
inductive CreateOutcome where
  | duplicateIdentifier (bill_id : String)
  | missingField
  | emptyItems
  | stockErr (e : StockErr)
  | integrityErr (bill_id : String)
  | ok (bill : BillRow) (rows : List ItemRow)
deriving DecidableEq

/-- Line-item rows inserted for a bill, in posted order, with consecutive
AUTOINCREMENT keys; each row's `bill_id` column holds `bref`. -/
def mkRows : Nat → ColVal → List ItemInput → List ItemRow
  | _, _, [] => []
  | rid, bref, it :: rest =>
    ⟨rid, bref, it.product_id, it.product_name, it.quantity, it.unit_price,
      it.gst_percentage, it.gst_amount, it.cgst, it.sgst, it.igst, it.total⟩
      :: mkRows (rid + 1) bref rest

/-- `create` (`billing.py` lines 59-208).  Returns the (possibly unchanged)
database and the outcome; every error path of the source commits nothing.
Note line 192: the items are inserted with the *text* bill identifier, which
the INTEGER-affinity column stores as `canonical bid`. -/
def create (db : DB) (req : CreateReq) : DB × CreateOutcome :=
  let bid0 := pyStrip req.bill_id
  let auto := req.bill_id_mode = "auto" ∨ bid0 = ""
  if ¬ auto ∧ db.billing.any (fun b => b.bill_id == bid0) then
    (db, .duplicateIdentifier bid0)
  else
    let bid := if auto then nextAutoBillId db else bid0
    if req.customer_id = "" ∨ req.bill_date = "" then (db, .missingField)
    else if req.items = [] then (db, .emptyItems)
    else
      match checkStock db.inventory (groupInputs req.items) with
      | some e => (db, .stockErr e)
      | none =>
        if db.billing.any (fun b => b.bill_id == bid) then (db, .integrityErr bid)
        else
          let bill : BillRow :=
            ⟨db.nextBillKey, bid, req.customer_id, req.bill_date,
              (req.items.map (fun it => it.subtotal)).sum,
              (req.items.map (fun it => it.gst_amount)).sum,
              (req.items.map (fun it => it.total)).sum,
              req.payment_status, req.notes⟩
          let rows := mkRows db.nextItemKey (canonical bid) req.items
          (⟨db.billing ++ [bill], db.billing_items ++ rows,
            deductInputs db.inventory req.items,
            db.nextBillKey + 1, db.nextItemKey + rows.length⟩,
           .ok bill rows)

/-- `SELECT product_id, quantity FROM billing_items WHERE bill_id = ?` with
the bill's *internal numeric key* as parameter, as run by `cancel_bills`
(line 361) and `update` (lines 604, 754). -/
def itemsByKey (db : DB) (k : Nat) : List ItemRow :=
  db.billing_items.filter (fun r => r.bill_id == ColVal.int (k : Int))

/-- Line items reached through a bill's *external text identifier*
(the association used by `create`'s inserts, `delete`, `view`, `print` and
the export). -/
def itemsByText (db : DB) (b : BillRow) : List ItemRow :=
  db.billing_items.filter (fun r => r.bill_id == canonical b.bill_id)

/-- Inventory restoration performed by `cancel_bills` for one selected
internal bill key (lines 360-366). -/
def cancelOne (db : DB) (k : Nat) : DB :=
  { db with inventory := restoreItems db.inventory (itemsByKey db k) }

/-- `cancel_bills` (`billing.py` lines 348-376): restore the quantities of
the rows matching each selected key, then set those bills' status to
`Cancelled`.  No status is checked before releasing. -/
def cancel_bills (db : DB) (ks : List Nat) : DB :=
  if ks = [] then db
  else
    let db1 := ks.foldl cancelOne db
    { db1 with
      billing := db1.billing.map
        (fun b => if b.id ∈ ks then { b with payment_status := "Cancelled" } else b) }

/-- `delete` (`billing.py` lines 255-284): look the bill up by internal key,
restore the quantities of the rows matching its *text* identifier, then
remove those rows and the bill.  No live-reservation status is checked. -/
def delete (db : DB) (k : Nat) : DB :=
  match db.billing.find? (fun b => b.id == k) with
  | none => db
  | some b =>
    let key := canonical b.bill_id
    let matched := db.billing_items.filter (fun r => r.bill_id == key)
    { billing := db.billing.filter (fun x => !(x.id == k)),
      billing_items := db.billing_items.filter (fun r => !(r.bill_id == key)),
      inventory := restoreItems db.inventory matched,
      nextBillKey := db.nextBillKey,
      nextItemKey := db.nextItemKey }

/-- The POST form data of `update`; `confirm_update` is the
`confirm_update == 'yes'` flag distinguishing commit from preview. -/
structure UpdateReq where
  bill_id : String
  customer_id : String
  bill_date : String
  payment_status : String
  notes : String
  items : List ItemInput
  confirm_update : Bool
deriving DecidableEq

/-- One entry of the `inventory_changes` preview list (lines 651-659). -/
structure InvChange where
  product_id : Nat
  current_qty : Int
  old_bill_qty : Int
  new_bill_qty : Int
  net_change : Int
  new_inventory : Int
deriving DecidableEq

/-- Outcome of `update`.  `billNotFound` models the uncaught exception on a
missing bill; `insufficientPreview` carries the offending preview entries. -/
inductive UpdateOutcome where
  | billNotFound
  | duplicateIdentifier (bill_id : String)
  | missingField
  | emptyItems
  | preview (changes : List InvChange)
  | insufficientPreview (offending : List InvChange)
  | stockErr (e : StockErr)
  | ok (bill : BillRow)
deriving DecidableEq

/-- Product ids in the union `set(old) | set(new)` of grouped keys
(old-first order; Python's set order is unspecified, and no property proved
here depends on the order). -/
def unionKeys (a b : List (Nat × Int)) : List Nat :=
  a.map (fun e => e.1) ++
    (b.map (fun e => e.1)).filter (fun p => !(a.any (fun e => e.1 == p)))

/-- The preview computation of `update` (lines 609-659): net change
`old_qty - new_qty` per product of the union, against current availability;
products with zero net change are not listed. -/
def previewChanges (db : DB) (olds : List ItemRow) (items : List ItemInput) :
    List InvChange :=
  let oldG := groupRows olds
  let newG := groupInputs items
  (unionKeys oldG newG).filterMap
    (fun p =>
      let oq := lookupQty oldG p
      let nq := lookupQty newG p
      let cur := availOf db.inventory p
      let net := oq - nq
      if net = 0 then none else some ⟨p, cur, oq, nq, net, cur + net⟩)

/-- Overwrite a stored line-item row in place with posted fields; the
`bill_id` column is *not* among the updated columns (lines 763-771). -/
def overwriteRow (r : ItemRow) (it : ItemInput) : ItemRow :=
  { r with
    product_id := it.product_id, product_name := it.product_name,
    quantity := it.quantity, unit_price := it.unit_price,
    gst_percentage := it.gst_percentage, gst_amount := it.gst_amount,
    cgst := it.cgst, sgst := it.sgst, igst := it.igst, total := it.total }

/-- Apply the in-place `UPDATE billing_items ... WHERE id = ?` writes. -/
def applyItemWrites (rows : List ItemRow) (writes : List (Nat × ItemInput)) :
    List ItemRow :=
  writes.foldl
    (fun acc w => acc.map (fun r => if r.id = w.1 then overwriteRow r w.2 else r))
    rows

/-- `update` (`billing.py` lines 556-795).  The preview phase (confirm flag
unset) mutates nothing.  The commit phase restores the quantities of the
rows found under the *numeric* key, validates grouped new demand (rolling
the restoration back on failure, lines 722-739 — the net state is then
unchanged), overwrites the header with recomputed totals, updates the first
rows in place / inserts the rest under the numeric key / deletes extras, and
deducts the new quantities. -/
def update (db : DB) (k : Nat) (req : UpdateReq) : DB × UpdateOutcome :=
  match db.billing.find? (fun b => b.id == k) with
  | none => (db, .billNotFound)
  | some current =>
    let bid0 := pyStrip req.bill_id
    if bid0 ≠ current.bill_id ∧
        db.billing.any (fun b => b.bill_id == bid0 && !(b.id == k)) then
      (db, .duplicateIdentifier bid0)
    else if req.customer_id = "" ∨ req.bill_date = "" then (db, .missingField)
    else if req.items = [] then (db, .emptyItems)
    else
      let olds := itemsByKey db k
      if ¬ req.confirm_update then
        let changes := previewChanges db olds req.items
        let insuff := changes.filter (fun c => c.new_inventory < 0)
        if insuff = [] then (db, .preview changes)
        else (db, .insufficientPreview insuff)
      else
        let inv1 := restoreItems db.inventory olds
        match checkStock inv1 (groupInputs req.items) with
        | some e => (db, .stockErr e)
        | none =>
          let bill' : BillRow :=
            ⟨current.id, bid0, req.customer_id, req.bill_date,
              (req.items.map (fun it => (it.quantity : Rat) * it.unit_price)).sum,
              (req.items.map (fun it => it.gst_amount)).sum,
              (req.items.map (fun it => it.total)).sum,
              req.payment_status, req.notes⟩
          let existingIds := olds.map (fun r => r.id)
          let inserted :=
            mkRows db.nextItemKey (ColVal.int (k : Int))
              (req.items.drop existingIds.length)
          let extra := existingIds.drop req.items.length
          let rows1 := applyItemWrites db.billing_items (existingIds.zip req.items)
          (⟨db.billing.map (fun b => if b.id = k then bill' else b),
            (rows1.filter (fun r => !(extra.contains r.id))) ++ inserted,
            deductInputs inv1 req.items,
            db.nextBillKey, db.nextItemKey + inserted.length⟩,
           .ok bill')

/-- Quantity of product `pid` reserved by bill `b` through the line items its
external identifier reaches. -/
def reservedBy (db : DB) (b : BillRow) (pid : Nat) : Int :=
  (((itemsByText db b).filter (fun r => r.product_id == pid)).map
    (fun r => r.quantity)).sum

/-- Total quantity of product `pid` reserved by all active (non-cancelled)
bills. -/
def activeReserved (db : DB) (pid : Nat) : Int :=
  ((db.billing.filter (fun b => b.payment_status != "Cancelled")).map
    (fun b => reservedBy db b pid)).sum

/-- ASCII lower-casing of one character. -/
def lowerChar (c : Char) : Char :=
  if 'A' ≤ c ∧ c ≤ 'Z' then Char.ofNat (c.toNat + 32) else c

/-- Normalisation used for the jurisdiction comparison (case-insensitive,
trimmed). -/
def normState (s : String) : String := ⟨(trimChars s.data).map lowerChar⟩

/-- A CGST/SGST/IGST split of a line item's tax amount. -/
structure TaxSplit where
  cgst : Rat
  sgst : Rat
  igst : Rat
deriving DecidableEq

/-- Modelled from the spec: the Tax Jurisdiction Calculator (spec section
4.1).  The split is computed client-side in the bill templates, which are
not part of `src/`; `create` (lines 191-198) persists the posted
`cgst`/`sgst`/`igst` fields verbatim.  Following the spec's words: equal
states (case-insensitive, trimmed) split the amount equally into CGST and
SGST, each `subtotal*percentage/200`, with IGST `0`; otherwise IGST is the
full `subtotal*percentage/100` with CGST and SGST `0`. -/
def taxSplit (sellerState customerState : String) (subtotal pct : Rat) : TaxSplit :=
  if normState sellerState = normState customerState then
    ⟨subtotal * pct / 200, subtotal * pct / 200, 0⟩
  else
    ⟨0, 0, subtotal * pct / 100⟩

/-! ### Decimal rendering and parsing -/

theorem digitVal?_digit (d : Nat) (h : d < 10) :
    digitVal? (Char.ofNat ('0'.toNat + d)) = some d := by
  interval_cases d <;> decide

theorem digit_ne_sign (d : Nat) (h : d < 10) :
    Char.ofNat ('0'.toNat + d) ≠ '-' ∧ Char.ofNat ('0'.toNat + d) ≠ '+' := by
  interval_cases d <;> exact ⟨by decide, by decide⟩

theorem parseDigitsAux_append (xs ys : List Char) (acc : Nat) :
    parseDigitsAux (xs ++ ys) acc =
      (parseDigitsAux xs acc).bind (fun a => parseDigitsAux ys a) := by
  induction xs generalizing acc with
  | nil => rfl
  | cons c cs ih =>
    simp only [List.cons_append, parseDigitsAux]
    cases digitVal? c with
    | none => rfl
    | some d => exact ih _

theorem natDecimalAux_ne_nil (fuel n : Nat) : natDecimalAux fuel n ≠ [] := by
  cases fuel with
  | zero => simp [natDecimalAux]
  | succ fuel =>
    unfold natDecimalAux
    split <;> simp

theorem natDecimal_ne_nil (n : Nat) : natDecimal n ≠ [] :=
  natDecimalAux_ne_nil n n

theorem natDecimalAux_head (fuel : Nat) : ∀ n : Nat,
    ∃ d cs, d < 10 ∧ natDecimalAux fuel n = Char.ofNat ('0'.toNat + d) :: cs := by
  induction fuel with
  | zero => exact fun n => ⟨n % 10, [], Nat.mod_lt n (by omega), rfl⟩
  | succ fuel ih =>
    intro n
    unfold natDecimalAux
    split
    · exact ⟨n, [], by assumption, rfl⟩
    · obtain ⟨d, cs, hd, hh⟩ := ih (n / 10)
      exact ⟨d, cs ++ [Char.ofNat ('0'.toNat + n % 10)], hd, by rw [hh]; rfl⟩

theorem natDecimal_head (n : Nat) :
    ∃ d cs, d < 10 ∧ natDecimal n = Char.ofNat ('0'.toNat + d) :: cs :=
  natDecimalAux_head n n

theorem parseDigitsAux_natDecimalAux (fuel : Nat) : ∀ n acc : Nat, n ≤ fuel →
    parseDigitsAux (natDecimalAux fuel n) acc =
      some (acc * 10 ^ (natDecimalAux fuel n).length + n) := by
  induction fuel with
  | zero =>
    intro n acc hn
    have hn0 : n = 0 := by omega
    subst hn0
    have h0 : digitVal? (Char.ofNat 48) = some 0 := by decide
    simp [natDecimalAux, parseDigitsAux, h0]
  | succ fuel ih =>
    intro n acc hn
    unfold natDecimalAux
    split
    · simp only [parseDigitsAux, digitVal?_digit n (by assumption)]
      simp
    · have hfuel : n / 10 ≤ fuel := by
        have : n / 10 < n := Nat.div_lt_self (by omega) (by omega)
        omega
      rw [parseDigitsAux_append, ih (n / 10) acc hfuel]
      simp only [Option.some_bind, parseDigitsAux,
        digitVal?_digit (n % 10) (Nat.mod_lt n (by omega)), List.length_append,
        List.length_cons, List.length_nil]
      congr 1
      calc (acc * 10 ^ (natDecimalAux fuel (n / 10)).length + n / 10) * 10 + n % 10
          = acc * (10 ^ (natDecimalAux fuel (n / 10)).length * 10) +
              (10 * (n / 10) + n % 10) := by ring
        _ = acc * 10 ^ ((natDecimalAux fuel (n / 10)).length + (0 + 1)) + n := by
              rw [Nat.div_add_mod]; ring_nf
        _ = _ := by norm_num

theorem parseDigitsAux_natDecimal (n : Nat) : ∀ acc : Nat,
    parseDigitsAux (natDecimal n) acc =
      some (acc * 10 ^ (natDecimal n).length + n) :=
  fun acc => parseDigitsAux_natDecimalAux n n acc le_rfl

theorem parseDigits_natDecimal (n : Nat) : parseDigits (natDecimal n) = some n := by
  obtain ⟨d, cs, hd, hh⟩ := natDecimal_head n
  have := parseDigitsAux_natDecimal n 0
  rw [hh] at this ⊢
  simpa [parseDigits] using this

theorem intLit?_intRepr (k : Int) : intLit? (intRepr k) = some k := by
  unfold intRepr
  split
  · show intLit? ⟨'-' :: natDecimal k.natAbs⟩ = some k
    have hk : -((k.natAbs : Int)) = k := by omega
    simp only [intLit?, parseDigits_natDecimal, Option.map_some, hk]
    simp [hk]
    rw [abs_of_neg (show k < 0 by omega)]
    ring
  · show intLit? ⟨natDecimal k.toNat⟩ = some k
    obtain ⟨d, cs, hd, hh⟩ := natDecimal_head k.toNat
    obtain ⟨h1, h2⟩ := digit_ne_sign d hd
    simp only [intLit?, hh]
    rw [← hh]
    simp only [if_neg h1, if_neg h2, parseDigits_natDecimal k.toNat]
    simp
    omega

/-! ### Grouping lemmas -/

theorem lookupQty_nil (p : Nat) : lookupQty [] p = 0 := rfl

theorem lookupQty_cons (e : Nat × Int) (g : List (Nat × Int)) (p : Nat) :
    lookupQty (e :: g) p = if e.1 = p then e.2 else lookupQty g p := by
  simp only [lookupQty, List.find?]
  cases h : (e.1 == p) with
  | true =>
    rw [if_pos (by simpa [beq_iff_eq] using h)]
  | false =>
    rw [if_neg (by simpa [beq_iff_eq] using h)]

theorem lookupQty_addQty (g : List (Nat × Int)) (p : Nat) (q : Int) (p' : Nat) :
    lookupQty (addQty g p q) p' = lookupQty g p' + (if p' = p then q else 0) := by
  induction g with
  | nil =>
    rw [show addQty [] p q = [(p, q)] from rfl, lookupQty_cons, lookupQty_nil]
    by_cases h : p' = p
    · simp [h]
    · simp [h, Ne.symm h]
  | cons e rest ih =>
    by_cases he : e.1 = p
    · rw [show addQty (e :: rest) p q = (e.1, e.2 + q) :: rest from by
        simp [addQty, he], lookupQty_cons, lookupQty_cons]
      by_cases h' : e.1 = p'
      · have hp : p' = p := h' ▸ he
        simp [h', hp]
      · have : ¬ p' = p := fun hc => h' (he.trans hc.symm)
        simp [h', this]
    · rw [show addQty (e :: rest) p q = e :: addQty rest p q from by
        simp [addQty, he], lookupQty_cons, lookupQty_cons, ih]
      by_cases h' : e.1 = p'
      · have : ¬ p' = p := fun hc => he (h'.trans hc)
        simp [h', this]
      · simp [h']

theorem lookupQty_foldl (l : List (Nat × Int)) :
    ∀ (acc : List (Nat × Int)) (p : Nat),
      lookupQty (l.foldl (fun acc e => addQty acc e.1 e.2) acc) p =
        lookupQty acc p + ((l.filter (fun e => e.1 == p)).map (fun e => e.2)).sum := by
  induction l with
  | nil => simp
  | cons e rest ih =>
    intro acc p
    by_cases h : e.1 = p
    · simp [List.foldl_cons, ih, lookupQty_addQty, h, List.filter_cons]
      ring
    · simp [List.foldl_cons, ih, lookupQty_addQty, h, Ne.symm h, List.filter_cons]

/-- The grouped quantity of product `p` is the sum of the quantities of the
pairs whose key is `p`. -/
theorem lookupQty_groupPairs (l : List (Nat × Int)) (p : Nat) :
    lookupQty (groupPairs l) p =
      ((l.filter (fun e => e.1 == p)).map (fun e => e.2)).sum := by
  simpa [lookupQty_nil] using lookupQty_foldl l [] p

theorem mem_keys_addQty (g : List (Nat × Int)) (p : Nat) (q : Int) (p' : Nat) :
    p' ∈ (addQty g p q).map (fun e => e.1) ↔
      p' ∈ g.map (fun e => e.1) ∨ p' = p := by
  induction g with
  | nil => simp [addQty]
  | cons e rest ih =>
    by_cases he : e.1 = p <;> simp [addQty, he, ih] <;> tauto

theorem keys_nodup_addQty (g : List (Nat × Int)) (p : Nat) (q : Int)
    (h : (g.map (fun e => e.1)).Nodup) :
    ((addQty g p q).map (fun e => e.1)).Nodup := by
  induction g with
  | nil => simp [addQty]
  | cons e rest ih =>
    by_cases he : e.1 = p
    · simpa [addQty, he] using h
    · simp only [addQty, if_neg he, List.map_cons, List.nodup_cons] at h ⊢
      refine ⟨fun hc => ?_, ih h.2⟩
      rcases (mem_keys_addQty rest p q e.1).mp hc with h1 | h1
      · exact h.1 h1
      · exact he h1

theorem mem_keys_foldl (l : List (Nat × Int)) :
    ∀ (acc : List (Nat × Int)) (p : Nat),
      p ∈ ((l.foldl (fun acc e => addQty acc e.1 e.2) acc).map (fun e => e.1)) ↔
        p ∈ acc.map (fun e => e.1) ∨ ∃ e ∈ l, e.1 = p := by
  induction l with
  | nil => simp
  | cons e rest ih =>
    intro acc p
    simp only [List.foldl_cons, ih, mem_keys_addQty, List.mem_cons]
    constructor
    · rintro (⟨h | h⟩ | h)
      · exact Or.inl h
      · exact Or.inr ⟨e, Or.inl rfl, h.symm⟩
      · rcases h with ⟨x, hx, hp⟩
        exact Or.inr ⟨x, Or.inr hx, hp⟩
    · rintro (h | ⟨x, hx | hx, hp⟩)
      · exact Or.inl (Or.inl h)
      · exact Or.inl (Or.inr (hx ▸ hp.symm))
      · exact Or.inr ⟨x, hx, hp⟩

/-- Membership in the grouped keys. -/
theorem mem_keys_groupPairs (l : List (Nat × Int)) (p : Nat) :
    p ∈ (groupPairs l).map (fun e => e.1) ↔ ∃ e ∈ l, e.1 = p := by
  simpa [groupPairs] using mem_keys_foldl l [] p

/-- Grouped keys are pairwise distinct. -/
theorem keys_nodup_groupPairs (l : List (Nat × Int)) :
    ((groupPairs l).map (fun e => e.1)).Nodup := by
  have : ∀ (acc : List (Nat × Int)), (acc.map (fun e => e.1)).Nodup →
      ((l.foldl (fun acc e => addQty acc e.1 e.2) acc).map (fun e => e.1)).Nodup := by
    induction l with
    | nil => exact fun acc h => h
    | cons e rest ih =>
      exact fun acc h => ih _ (keys_nodup_addQty acc e.1 e.2 h)
  simpa [groupPairs] using this [] (by simp)

theorem mem_eq_lookup_of_keys_nodup (g : List (Nat × Int))
    (hnd : (g.map (fun e => e.1)).Nodup) (e : Nat × Int) (h : e ∈ g) :
    e.2 = lookupQty g e.1 := by
  induction g with
  | nil => cases h
  | cons x rest ih =>
    simp only [List.map_cons, List.nodup_cons] at hnd
    rcases List.mem_cons.mp h with h1 | h1
    · subst h1
      rw [lookupQty_cons]
      simp
    · have hne : ¬ x.1 = e.1 := by
        intro hc
        exact hnd.1 (hc ▸ List.mem_map_of_mem (fun y => y.1) h1)
      rw [lookupQty_cons, if_neg hne]
      exact ih hnd.2 h1

/-- A member of a grouped list records the grouped quantity of its key. -/
theorem mem_groupPairs_eq_lookup (l : List (Nat × Int)) (e : Nat × Int)
    (h : e ∈ groupPairs l) : e.2 = lookupQty (groupPairs l) e.1 :=
  mem_eq_lookup_of_keys_nodup _ (keys_nodup_groupPairs l) e h

/-! ### Inventory lemmas -/

theorem findP_adjustQty (inv : List Product) (p' : Nat) (d : Int) (p : Nat) :
    findP (adjustQty inv p' d) p =
      (findP inv p).map
        (fun x => if x.id = p' then { x with quantity := x.quantity + d } else x) := by
  induction inv with
  | nil => rfl
  | cons x rest ih =>
    have hid : (if x.id = p' then { x with quantity := x.quantity + d } else x).id
        = x.id := by
      by_cases hxp : x.id = p' <;> simp [hxp]
    rw [show adjustQty (x :: rest) p' d =
      (if x.id = p' then { x with quantity := x.quantity + d } else x)
        :: adjustQty rest p' d from rfl]
    by_cases hx : x.id = p
    · rw [findP, findP, List.find?_cons_of_pos _ (show _ = true by
        rw [hid, hx]; exact beq_self_eq_true p),
        List.find?_cons_of_pos _ (by simpa [beq_iff_eq] using hx)]
      rfl
    · rw [findP, findP, List.find?_cons_of_neg _ (by
        rw [hid]; simpa [beq_iff_eq] using hx),
        List.find?_cons_of_neg _ (by simpa [beq_iff_eq] using hx)]
      exact ih

theorem findP_isSome_adjustQty (inv : List Product) (p' : Nat) (d : Int) (p : Nat) :
    (findP (adjustQty inv p' d) p).isSome = (findP inv p).isSome := by
  rw [findP_adjustQty]
  cases findP inv p <;> rfl

theorem availOf_adjustQty (inv : List Product) (p' : Nat) (d : Int) (p : Nat)
    (h : p = p' → (findP inv p).isSome) :
    availOf (adjustQty inv p' d) p =
      availOf inv p + (if p = p' then d else 0) := by
  unfold availOf
  rw [findP_adjustQty]
  cases hf : findP inv p with
  | none =>
    by_cases hp : p = p'
    · exact absurd (h hp) (by simp [hf])
    · simp [hp]
  | some x =>
    have hxid : x.id = p := by
      have := List.find?_some hf
      simpa [beq_iff_eq] using this
    by_cases hp : p = p'
    · simp [Option.map_some, hxid, hp]
    · simp [Option.map_some, hxid, hp]

/-- Restoring rows that all reference product `P` adds their total quantity
to `P`'s availability (and `P` stays resolvable). -/
theorem availOf_restoreItems_allP (rows : List ItemRow) (P : Nat) :
    ∀ inv : List Product, (∀ r ∈ rows, r.product_id = P) →
      (findP inv P).isSome →
      availOf (restoreItems inv rows) P =
          availOf inv P + ((rows.map (fun r => r.quantity)).sum) ∧
        (findP (restoreItems inv rows) P).isSome := by
  induction rows with
  | nil => intro inv _ hs; simpa [restoreItems] using hs
  | cons r rest ih =>
    intro inv hall hs
    have hrP : r.product_id = P := hall r (by simp)
    have hstep : availOf (adjustQty inv r.product_id r.quantity) P =
        availOf inv P + r.quantity := by
      rw [availOf_adjustQty inv r.product_id r.quantity P (fun _ => hs), hrP,
        if_pos rfl]
    have hs' : (findP (adjustQty inv r.product_id r.quantity) P).isSome := by
      rw [findP_isSome_adjustQty]; exact hs
    have := ih (adjustQty inv r.product_id r.quantity)
      (fun x hx => hall x (by simp [hx])) hs'
    refine ⟨?_, this.2⟩
    rw [show restoreItems inv (r :: rest) =
      restoreItems (adjustQty inv r.product_id r.quantity) rest from rfl,
      this.1, hstep]
    simp
    ring

/-- Deducting posted items that all reference product `P` subtracts their
total quantity from `P`'s availability. -/
theorem availOf_deductInputs_allP (items : List ItemInput) (P : Nat) :
    ∀ inv : List Product, (∀ it ∈ items, it.product_id = P) →
      (findP inv P).isSome →
      availOf (deductInputs inv items) P =
          availOf inv P - ((items.map (fun it => it.quantity)).sum) ∧
        (findP (deductInputs inv items) P).isSome := by
  induction items with
  | nil => intro inv _ hs; simpa [deductInputs] using hs
  | cons it rest ih =>
    intro inv hall hs
    have hitP : it.product_id = P := hall it (by simp)
    have hstep : availOf (adjustQty inv it.product_id (-it.quantity)) P =
        availOf inv P - it.quantity := by
      rw [availOf_adjustQty inv it.product_id (-it.quantity) P (fun _ => hs),
        hitP, if_pos rfl]
      ring
    have hs' : (findP (adjustQty inv it.product_id (-it.quantity)) P).isSome := by
      rw [findP_isSome_adjustQty]; exact hs
    have := ih (adjustQty inv it.product_id (-it.quantity))
      (fun x hx => hall x (by simp [hx])) hs'
    refine ⟨?_, this.2⟩
    rw [show deductInputs inv (it :: rest) =
      deductInputs (adjustQty inv it.product_id (-it.quantity)) rest from rfl,
      this.1, hstep]
    simp
    ring

/-- Grouping pairs that all share the key `P` yields the single entry
`(P, total)`. -/
theorem groupPairs_allP (l : List (Nat × Int)) (P : Nat)
    (hne : l ≠ []) (hall : ∀ e ∈ l, e.1 = P) :
    groupPairs l = [(P, (l.map (fun e => e.2)).sum)] := by
  have aux : ∀ (t : List (Nat × Int)) (s : Int), (∀ e ∈ t, e.1 = P) →
      t.foldl (fun acc e => addQty acc e.1 e.2) [(P, s)] =
        [(P, s + (t.map (fun e => e.2)).sum)] := by
    intro t
    induction t with
    | nil => intro s _; simp
    | cons e rest ih =>
      intro s hall'
      have heP : e.1 = P := hall' e (by simp)
      rw [List.foldl_cons,
        show addQty [(P, s)] e.1 e.2 = [(P, s + e.2)] from by simp [addQty, heP],
        ih (s + e.2) (fun x hx => hall' x (by simp [hx]))]
      simp
      ring
  cases l with
  | nil => exact absurd rfl hne
  | cons e rest =>
    have heP : e.1 = P := hall e (by simp)
    rw [groupPairs, List.foldl_cons,
      show addQty [] e.1 e.2 = [(P, e.2)] from by simp [addQty, heP],
      aux rest e.2 (fun x hx => hall x (by simp [hx]))]
    simp

/-! ### Stock-check lemmas -/

/-- The validation loop passes when every grouped product resolves and has
enough stock. -/
theorem checkStock_none (inv : List Product) (g : List (Nat × Int))
    (h : ∀ e ∈ g, ∃ prod, findP inv e.1 = some prod ∧ ¬ prod.quantity < e.2) :
    checkStock inv g = none := by
  induction g with
  | nil => rfl
  | cons e rest ih =>
    obtain ⟨prod, hf, hq⟩ := h e (by simp)
    simp only [checkStock, hf, if_neg hq]
    exact ih (fun x hx => h x (by simp [hx]))

/-- When every grouped product resolves and some grouped demand exceeds its
availability, the loop reports the first such product with its grouped
demand and its available quantity. -/
theorem checkStock_insufficient (inv : List Product) (g : List (Nat × Int))
    (hfound : ∀ e ∈ g, (findP inv e.1).isSome)
    (hbad : ∃ e ∈ g, availOf inv e.1 < e.2) :
    ∃ p r, checkStock inv g = some (.insufficientStock p r (availOf inv p)) ∧
      (p, r) ∈ g ∧ availOf inv p < r := by
  induction g with
  | nil => simp at hbad
  | cons e rest ih =>
    obtain ⟨prod, hf⟩ := Option.isSome_iff_exists.mp (hfound e (by simp))
    have havail : availOf inv e.1 = prod.quantity := by simp [availOf, hf]
    by_cases hq : prod.quantity < e.2
    · refine ⟨e.1, e.2, ?_, by simp, by rw [havail]; exact hq⟩
      simp only [checkStock, hf, if_pos hq, havail]
    · have hbad' : ∃ x ∈ rest, availOf inv x.1 < x.2 := by
        rcases hbad with ⟨x, hx, hlt⟩
        rcases List.mem_cons.mp hx with h1 | h1
        · exact absurd hlt (by rw [h1, havail]; exact hq)
        · exact ⟨x, h1, hlt⟩
      obtain ⟨p, r, hcs, hmem, hlt⟩ :=
        ih (fun x hx => hfound x (by simp [hx])) hbad'
      exact ⟨p, r, by simpa [checkStock, hf, hq] using hcs, by simp [hmem], hlt⟩

/-! ### Grouped demand of posted items and stored rows -/

theorem groupInputs_lookup (items : List ItemInput) (p : Nat) :
    lookupQty (groupInputs items) p =
      ((items.filter (fun it => it.product_id == p)).map
        (fun it => it.quantity)).sum := by
  rw [groupInputs, lookupQty_groupPairs, List.filter_map]
  simp [Function.comp_def]

theorem groupRows_lookup (rows : List ItemRow) (p : Nat) :
    lookupQty (groupRows rows) p =
      ((rows.filter (fun r => r.product_id == p)).map
        (fun r => r.quantity)).sum := by
  rw [groupRows, lookupQty_groupPairs, List.filter_map]
  simp [Function.comp_def]

theorem mem_keys_groupInputs (items : List ItemInput) (p : Nat) :
    p ∈ (groupInputs items).map (fun e => e.1) ↔
      ∃ it ∈ items, it.product_id = p := by
  rw [groupInputs, mem_keys_groupPairs]
  constructor
  · rintro ⟨e, he, hp⟩
    obtain ⟨it, hit, rfl⟩ := List.mem_map.mp he
    exact ⟨it, hit, hp⟩
  · rintro ⟨it, hit, hp⟩
    exact ⟨(it.product_id, it.quantity), List.mem_map_of_mem _ hit, hp⟩

theorem mem_keys_groupRows (rows : List ItemRow) (p : Nat) :
    p ∈ (groupRows rows).map (fun e => e.1) ↔
      ∃ r ∈ rows, r.product_id = p := by
  rw [groupRows, mem_keys_groupPairs]
  constructor
  · rintro ⟨e, he, hp⟩
    obtain ⟨r, hr, rfl⟩ := List.mem_map.mp he
    exact ⟨r, hr, hp⟩
  · rintro ⟨r, hr, hp⟩
    exact ⟨(r.product_id, r.quantity), List.mem_map_of_mem _ hr, hp⟩

/-! ### C5 -/

/-- C5: for every bill-create request whose line items are grouped by product
with quantities summed per product, if any product's summed demand exceeds
its available quantity the creation fails with `InsufficientStock` reporting
the offending product with the requested and available amounts, and no bill,
line item, or inventory change is persisted (the returned state is exactly
the input state). -/
theorem c5_create_rejects_summed_overdemand (db : DB) (req : CreateReq)
    (hmode : req.bill_id_mode = "auto" ∨ pyStrip req.bill_id = "" ∨
      ∀ b ∈ db.billing, b.bill_id ≠ pyStrip req.bill_id)
    (hcust : req.customer_id ≠ "") (hdate : req.bill_date ≠ "")
    (hprod : ∀ it ∈ req.items, (findP db.inventory it.product_id).isSome)
    (hover : ∃ pid, (∃ it ∈ req.items, it.product_id = pid) ∧
      availQty db pid <
        ((req.items.filter (fun it => it.product_id == pid)).map
          (fun it => it.quantity)).sum) :
    ∃ p requested,
      create db req =
        (db, .stockErr (.insufficientStock p requested (availQty db p))) ∧
      requested =
        ((req.items.filter (fun it => it.product_id == p)).map
          (fun it => it.quantity)).sum ∧
      availQty db p < requested := by
  have hfound : ∀ e ∈ groupInputs req.items, (findP db.inventory e.1).isSome := by
    intro e he
    have : e.1 ∈ (groupInputs req.items).map (fun e => e.1) :=
      List.mem_map_of_mem _ he
    obtain ⟨it, hit, hp⟩ := (mem_keys_groupInputs req.items e.1).mp this
    exact hp ▸ hprod it hit
  have hbad : ∃ e ∈ groupInputs req.items, availOf db.inventory e.1 < e.2 := by
    obtain ⟨pid, hin, hlt⟩ := hover
    have : pid ∈ (groupInputs req.items).map (fun e => e.1) :=
      (mem_keys_groupInputs req.items pid).mpr hin
    obtain ⟨e, he, hep⟩ := List.mem_map.mp this
    refine ⟨e, he, ?_⟩
    have := mem_groupPairs_eq_lookup _ e he
    rw [hep] at this ⊢
    rw [this, show lookupQty (groupPairs (req.items.map
      (fun it => (it.product_id, it.quantity)))) pid =
      lookupQty (groupInputs req.items) pid from rfl, groupInputs_lookup]
    exact hlt
  obtain ⟨p, r, hcs, hmem, hlt⟩ :=
    checkStock_insufficient db.inventory (groupInputs req.items) hfound hbad
  have hr : r = ((req.items.filter (fun it => it.product_id == p)).map
      (fun it => it.quantity)).sum := by
    have := mem_groupPairs_eq_lookup _ (p, r) hmem
    rw [show lookupQty (groupPairs (req.items.map
      (fun it => (it.product_id, it.quantity)))) (p, r).1 =
      lookupQty (groupInputs req.items) p from rfl, groupInputs_lookup] at this
    exact this
  refine ⟨p, r, ?_, hr, hlt⟩
  have hcond1 : ¬ (¬ (req.bill_id_mode = "auto" ∨ pyStrip req.bill_id = "") ∧
      (db.billing.any (fun b => b.bill_id == pyStrip req.bill_id)) = true) := by
    rintro ⟨hna, hany⟩
    rcases hmode with h | h | h
    · exact hna (Or.inl h)
    · exact hna (Or.inr h)
    · obtain ⟨b, hb, hbe⟩ := List.any_eq_true.mp hany
      exact h b hb (by simpa [beq_iff_eq] using hbe)
  have hcond2 : ¬ (req.customer_id = "" ∨ req.bill_date = "") := by
    rintro (h | h)
    · exact hcust h
    · exact hdate h
  have hcond3 : req.items ≠ [] := by
    obtain ⟨pid, ⟨it, hit, _⟩, _⟩ := hover
    intro hc
    rw [hc] at hit
    cases hit
  simp only [create, if_neg hcond1, if_neg hcond2, if_neg hcond3, hcs]
  rfl

/-- Concrete run of C5: two line items each requesting 3 units of a product
with 5 available fail with summed demand 6 against 5, and the state is
unchanged (stock remains 5). -/
theorem c5_create_rejects_summed_overdemand_witness :
    ∃ p requested,
      create ⟨[], [], [⟨1, "PROD0001", "Widget", 5, 10, 18⟩], 1, 1⟩
          ⟨"", "auto", "7", "2024-01-01", "Pending", "",
            [⟨1, "Widget", 3, 10, 18, 30, (27 : Rat)/5, 0, 0, (27 : Rat)/5,
              (177 : Rat)/5⟩,
             ⟨1, "Widget", 3, 10, 18, 30, (27 : Rat)/5, 0, 0, (27 : Rat)/5,
              (177 : Rat)/5⟩]⟩ =
        (⟨[], [], [⟨1, "PROD0001", "Widget", 5, 10, 18⟩], 1, 1⟩,
          .stockErr (.insufficientStock p requested
            (availQty ⟨[], [], [⟨1, "PROD0001", "Widget", 5, 10, 18⟩], 1, 1⟩ p))) ∧
      requested = (((⟨"", "auto", "7", "2024-01-01", "Pending", "",
            [⟨1, "Widget", 3, 10, 18, 30, (27 : Rat)/5, 0, 0, (27 : Rat)/5,
              (177 : Rat)/5⟩,
             ⟨1, "Widget", 3, 10, 18, 30, (27 : Rat)/5, 0, 0, (27 : Rat)/5,
              (177 : Rat)/5⟩]⟩ : CreateReq).items.filter
          (fun it => it.product_id == p)).map (fun it => it.quantity)).sum ∧
      availQty ⟨[], [], [⟨1, "PROD0001", "Widget", 5, 10, 18⟩], 1, 1⟩ p < requested :=
  c5_create_rejects_summed_overdemand _ _ (Or.inl rfl) (by decide) (by decide)
    (by decide) ⟨1, ⟨by simp, by decide⟩⟩

/-! ### Shape of a successful create -/

/-- Everything a successful `create` determines: the header totals are the
sums over the posted items, the inserted rows are the posted items keyed by
the canonical form of the bill's text identifier, the identifier is fresh,
and the new state is the old one plus the insertions and the deduction. -/
theorem create_ok_spec (db : DB) (req : CreateReq) (bill : BillRow)
    (rows : List ItemRow) (h : (create db req).2 = .ok bill rows) :
    bill.id = db.nextBillKey ∧
    bill.subtotal = (req.items.map (fun it => it.subtotal)).sum ∧
    bill.gst_amount = (req.items.map (fun it => it.gst_amount)).sum ∧
    bill.total_amount = (req.items.map (fun it => it.total)).sum ∧
    rows = mkRows db.nextItemKey (canonical bill.bill_id) req.items ∧
    bill.bill_id =
      (if req.bill_id_mode = "auto" ∨ pyStrip req.bill_id = ""
        then nextAutoBillId db else pyStrip req.bill_id) ∧
    (create db req).1 =
      ⟨db.billing ++ [bill], db.billing_items ++ rows,
        deductInputs db.inventory req.items, db.nextBillKey + 1,
        db.nextItemKey + rows.length⟩ := by
  revert h
  simp only [create]
  repeat' split
  all_goals intro h
  all_goals try exact CreateOutcome.noConfusion h
  all_goals
    injection h with h1 h2
  all_goals subst h1
  all_goals subst h2
  all_goals exact ⟨rfl, rfl, rfl, rfl, rfl, rfl, rfl⟩

/-- A successful `create` commits a bill identifier that is not carried by
any pre-existing bill (the `billing.bill_id UNIQUE` constraint would abort
the transaction otherwise). -/
theorem create_ok_fresh (db : DB) (req : CreateReq) (bill : BillRow)
    (rows : List ItemRow) (h : (create db req).2 = .ok bill rows) :
    ∀ b ∈ db.billing, b.bill_id ≠ bill.bill_id := by
  revert h
  simp only [create]
  repeat' split
  all_goals intro h
  all_goals try exact CreateOutcome.noConfusion h
  all_goals
    injection h with h1 h2
  all_goals subst h1
  all_goals
    intro b hb hc
    rename_i hcond
    exact hcond (List.any_eq_true.mpr ⟨b, hb, by simp [beq_iff_eq, hc]⟩)

/-- Projection of the inserted rows back onto the posted items. -/
theorem mkRows_map {α : Type} (f : ItemRow → α) (g : ItemInput → α)
    (hfg : ∀ rid bref it, f ⟨rid, bref, it.product_id, it.product_name,
      it.quantity, it.unit_price, it.gst_percentage, it.gst_amount, it.cgst,
      it.sgst, it.igst, it.total⟩ = g it) :
    ∀ (rid : Nat) (bref : ColVal) (items : List ItemInput),
      (mkRows rid bref items).map f = items.map g := by
  intro rid bref items
  induction items generalizing rid with
  | nil => rfl
  | cons it rest ih => simp [mkRows, hfg, ih]

/-- Every inserted row's `bill_id` column holds the canonical stored form of
the created bill's text identifier. -/
theorem mkRows_bill_id (rid : Nat) (bref : ColVal) (items : List ItemInput) :
    ∀ r ∈ mkRows rid bref items, r.bill_id = bref := by
  induction items generalizing rid with
  | nil => intro r hr; cases hr
  | cons it rest ih =>
    intro r hr
    rcases List.mem_cons.mp hr with h1 | h1
    · rw [h1]
    · exact ih _ r h1

/-! ### C7 -/

/-- C7: the jurisdiction-dependent tax split.  If the seller state equals the
customer state after case-insensitive trimming then
`cgst = sgst = subtotal*percentage/200` and `igst = 0`, otherwise
`igst = subtotal*percentage/100` and `cgst = sgst = 0`; in both cases
`cgst + sgst + igst = subtotal*percentage/100`.  Moreover `create` persists
the posted `cgst`/`sgst`/`igst` of every line item verbatim, so persisted
line items built with `taxSplit` satisfy the same rule. -/
theorem c7_tax_split_rule :
    (∀ seller customer : String, ∀ subtotal pct : Rat,
      (normState seller = normState customer →
        (taxSplit seller customer subtotal pct).cgst = subtotal * pct / 200 ∧
        (taxSplit seller customer subtotal pct).sgst = subtotal * pct / 200 ∧
        (taxSplit seller customer subtotal pct).igst = 0) ∧
      (normState seller ≠ normState customer →
        (taxSplit seller customer subtotal pct).igst = subtotal * pct / 100 ∧
        (taxSplit seller customer subtotal pct).cgst = 0 ∧
        (taxSplit seller customer subtotal pct).sgst = 0) ∧
      (taxSplit seller customer subtotal pct).cgst +
          (taxSplit seller customer subtotal pct).sgst +
          (taxSplit seller customer subtotal pct).igst =
        subtotal * pct / 100) ∧
    (∀ (db : DB) (req : CreateReq) (bill : BillRow) (rows : List ItemRow),
      (create db req).2 = .ok bill rows →
      rows.map (fun r => (r.cgst, r.sgst, r.igst)) =
        req.items.map (fun it => (it.cgst, it.sgst, it.igst))) := by
  constructor
  · intro seller customer subtotal pct
    by_cases h : normState seller = normState customer
    · refine ⟨fun _ => ⟨?_, ?_, ?_⟩, fun hc => absurd h hc, ?_⟩ <;>
        simp [taxSplit, h] <;> ring
    · refine ⟨fun hc => absurd hc h, fun _ => ⟨?_, ?_, ?_⟩, ?_⟩ <;>
        simp [taxSplit, h] <;> ring
  · intro db req bill rows h
    obtain ⟨_, _, _, _, hrows, _, _⟩ := create_ok_spec db req bill rows h
    rw [hrows]
    exact mkRows_map _ _ (fun _ _ _ => rfl) _ _ _

/-- Concrete instance of C7: a ₹100 item at 18% yields CGST = SGST = 9 and
IGST = 0 intra-state, and IGST = 18 with CGST = SGST = 0 inter-state. -/
theorem c7_tax_split_rule_witness :
    taxSplit "Kerala" "kerala " 100 18 = ⟨9, 9, 0⟩ ∧
    taxSplit "Kerala" "Goa" 100 18 = ⟨0, 0, 18⟩ := by
  have h := c7_tax_split_rule.1
  obtain ⟨hintra, _, _⟩ := h "Kerala" "kerala " 100 18
  obtain ⟨hi1, hi2, hi3⟩ := hintra (by decide)
  obtain ⟨_, hinterc, _⟩ := h "Kerala" "Goa" 100 18
  obtain ⟨hg1, hg2, hg3⟩ := hinterc (by decide)
  constructor
  · calc taxSplit "Kerala" "kerala " 100 18
        = ⟨(taxSplit "Kerala" "kerala " 100 18).cgst,
            (taxSplit "Kerala" "kerala " 100 18).sgst,
            (taxSplit "Kerala" "kerala " 100 18).igst⟩ := rfl
      _ = ⟨9, 9, 0⟩ := by
            rw [hi1, hi2, hi3, show (100 : Rat) * 18 / 200 = 9 by norm_num]
  · calc taxSplit "Kerala" "Goa" 100 18
        = ⟨(taxSplit "Kerala" "Goa" 100 18).cgst,
            (taxSplit "Kerala" "Goa" 100 18).sgst,
            (taxSplit "Kerala" "Goa" 100 18).igst⟩ := rfl
      _ = ⟨0, 0, 18⟩ := by
            rw [hg1, hg2, hg3, show (100 : Rat) * 18 / 100 = 18 by norm_num]

/-- Whether an `update` outcome is a committed update. -/
def UpdateOutcome.committed : UpdateOutcome → Bool
  | .ok _ => true
  | _ => false

/-! ### Shape of a committed update -/

/-- Everything a committed `update` determines: the overwritten header (with
totals recomputed from the posted items), the passed validations, and the new
state: old quantities restored then new ones deducted, rows rewritten under
the bill's numeric key. -/
theorem update_ok_spec (db : DB) (k : Nat) (req : UpdateReq)
    (current bill' : BillRow)
    (hfind : db.billing.find? (fun b => b.id == k) = some current)
    (h : (update db k req).2 = .ok bill') :
    bill' = ⟨current.id, pyStrip req.bill_id, req.customer_id, req.bill_date,
      (req.items.map (fun it => (it.quantity : Rat) * it.unit_price)).sum,
      (req.items.map (fun it => it.gst_amount)).sum,
      (req.items.map (fun it => it.total)).sum,
      req.payment_status, req.notes⟩ ∧
    req.confirm_update = true ∧
    (pyStrip req.bill_id = current.bill_id ∨
      ¬ (db.billing.any
          (fun b => b.bill_id == pyStrip req.bill_id && !(b.id == k))) = true) ∧
    checkStock (restoreItems db.inventory (itemsByKey db k))
      (groupInputs req.items) = none ∧
    (update db k req).1 =
      ⟨db.billing.map (fun b => if b.id = k then bill' else b),
        (applyItemWrites db.billing_items
            (((itemsByKey db k).map (fun r => r.id)).zip req.items)).filter
          (fun r => !((((itemsByKey db k).map (fun r => r.id)).drop
              req.items.length).contains r.id)) ++
          mkRows db.nextItemKey (.int (k : Int))
            (req.items.drop ((itemsByKey db k).map (fun r => r.id)).length),
        deductInputs (restoreItems db.inventory (itemsByKey db k)) req.items,
        db.nextBillKey,
        db.nextItemKey + (mkRows db.nextItemKey (.int (k : Int))
          (req.items.drop
            ((itemsByKey db k).map (fun r => r.id)).length)).length⟩ := by
  revert h
  simp only [update, hfind]
  repeat' split
  all_goals intro h
  all_goals try exact UpdateOutcome.noConfusion h
  injection h with h1
  subst h1
  rename_i hdup hmiss hempty hconfirm hx hcheck
  refine ⟨rfl, of_not_not hconfirm, ?_, hcheck, rfl⟩
  rcases not_and_or.mp hdup with h | h
  · exact Or.inl (not_not.mp h)
  · exact Or.inr h

/-! ### C1 -/

/-- Initial state for the C1 run: one product with 5 units in stock. -/
def c1Db0 : DB := ⟨[], [], [⟨1, "PROD0001", "Widget", 5, 10, 18⟩], 1, 1⟩

/-- C1 run: create a bill for 2 units (auto identifier `ST1`). -/
def c1Req : CreateReq := ⟨"", "auto", "1", "2024-01-01", "Pending", "",
  [⟨1, "Widget", 2, 10, 18, 20, 0, 0, 0, 0, 20⟩]⟩

/-- State after the C1 create. -/
def c1Db1 : DB := (create c1Db0 c1Req).1

/-- State after cancelling the created bill (internal key 1). -/
def c1Db2 : DB := cancel_bills c1Db1 [1]

/-- C1: the conservation law fails on the code.  Initially product 1 has 5
units and nothing is reserved; after creating a bill for 2 units the sum of
active reservations and available stock is still 5; but after cancelling
that bill the sum drops to 3, because `cancel_bills` looks the line items up
under the internal numeric key `1` while `create` stored them under the text
identifier `ST1`, so the cancel releases nothing while removing the bill
from the active set. -/
theorem c1_conservation_violated_by_cancel :
    availQty c1Db0 1 = 5 ∧ activeReserved c1Db0 1 = 0 ∧
    activeReserved c1Db1 1 = 2 ∧ availQty c1Db1 1 = 3 ∧
    activeReserved c1Db2 1 = 0 ∧ availQty c1Db2 1 = 3 ∧
    activeReserved c1Db2 1 + availQty c1Db2 1 ≠ 5 := by decide

/-! ### C2 -/

/-- Initial state for the C2 run: one product with 5 units in stock. -/
def c2Db0 : DB := ⟨[], [], [⟨1, "PROD0001", "Widget", 5, 10, 18⟩], 1, 1⟩

/-- C2 run: create a bill for 2 units with the manually supplied identifier
`"1"`, which the INTEGER-affinity line-item column stores as the integer 1 —
equal to the bill's internal numeric key, so `cancel_bills` finds the rows. -/
def c2Req : CreateReq := ⟨"1", "manual", "1", "2024-01-01", "Pending", "",
  [⟨1, "Widget", 2, 10, 18, 20, 0, 0, 0, 0, 20⟩]⟩

/-- State after the C2 create. -/
def c2Db1 : DB := (create c2Db0 c2Req).1

/-- State after the first cancel. -/
def c2Db2 : DB := cancel_bills c2Db1 [1]

/-- State after cancelling the same (already cancelled) bill again. -/
def c2Db3 : DB := cancel_bills c2Db2 [1]

/-- C2: cancelling twice releases stock twice, not once.  After the create
5-2=3 units remain; the first cancel restores to 5 and marks the bill
`Cancelled`; the second cancel of the already-cancelled bill releases the
same 2 units again, ending at 7 ≠ 5 — `cancel_bills` never checks the
status before releasing. -/
theorem c2_double_cancel_double_releases :
    availQty c2Db1 1 = 3 ∧
    availQty c2Db2 1 = 5 ∧
    c2Db2.billing.map (fun b => b.payment_status) = ["Cancelled"] ∧
    availQty c2Db3 1 = 7 ∧
    availQty c2Db3 1 ≠ availQty c2Db2 1 := by decide

/-! ### C6 -/

/-- Initial state for the C6 run: one product with 5 units in stock. -/
def c6Db0 : DB := ⟨[], [], [⟨1, "PROD0001", "Widget", 5, 10, 18⟩], 1, 1⟩

/-- C6 run: create a bill for 2 units with manual identifier `"1"` (stored
as the integer 1, equal to the numeric key). -/
def c6Req : CreateReq := ⟨"1", "manual", "1", "2024-01-01", "Pending", "",
  [⟨1, "Widget", 2, 10, 18, 20, 0, 0, 0, 0, 20⟩]⟩

/-- State after create and one cancel (stock already released back to 5). -/
def c6Db2 : DB := cancel_bills (create c6Db0 c6Req).1 [1]

/-- State after deleting the cancelled bill. -/
def c6Db3 : DB := delete c6Db2 1

/-- C6: deleting a bill whose stock was already released by a prior cancel
releases it a second time.  After the cancel the stock is back at 5 and the
bill is `Cancelled`; `delete` then removes the bill and its line items but
restores the 2 units again, ending at 7 — it never checks whether the
reservation is still live. -/
theorem c6_delete_after_cancel_double_releases :
    availQty c6Db2 1 = 5 ∧
    c6Db2.billing.map (fun b => b.payment_status) = ["Cancelled"] ∧
    availQty c6Db3 1 = 7 ∧
    c6Db3.billing = [] ∧
    c6Db3.billing_items = [] ∧
    availQty c6Db3 1 ≠ availQty c6Db2 1 := by decide

/-! ### C3 -/

/-- Initial state for the C3 run: one product with 10 units in stock. -/
def c3Db0 : DB := ⟨[], [], [⟨1, "PROD0001", "Widget", 10, 10, 0⟩], 1, 1⟩

/-- C3 run: create a bill (auto identifier `ST1`) holding 5 units. -/
def c3Req : CreateReq := ⟨"", "auto", "1", "2024-01-01", "Pending", "",
  [⟨1, "Widget", 5, 10, 0, 50, 0, 0, 0, 0, 50⟩]⟩

/-- State after the C3 create: 5 of 10 units remain available. -/
def c3Db1 : DB := (create c3Db0 c3Req).1

/-- C3 run: confirmed update of the bill down to 2 units. -/
def c3UpdReq : UpdateReq := ⟨"ST1", "1", "2024-01-01", "Pending", "",
  [⟨1, "Widget", 2, 10, 0, 20, 0, 0, 0, 0, 20⟩], true⟩

/-- Counterexample to C3 as stated: updating a bill created by `create`
(text-keyed line items) from 5 units down to 2 commits, but available stock
moves from 5 to 3 — a net decrease of 2 — instead of increasing by
`q_old - q_new = 3` to 8: the update's old-item lookup under the numeric key
finds nothing, so nothing is restored while the 2 new units are deducted. -/
theorem c3_counterexample_created_bill :
    availQty c3Db1 1 = 5 ∧
    ((c3Db1.billing.map (fun b =>
      ((itemsByText c3Db1 b).map (fun r => r.quantity)).sum))) = [5] ∧
    (update c3Db1 1 c3UpdReq).2.committed = true ∧
    availQty (update c3Db1 1 c3UpdReq).1 1 = 3 ∧
    availQty (update c3Db1 1 c3UpdReq).1 1 ≠ availQty c3Db1 1 + (5 - 2) := by
  decide

/-! ### C4 -/

/-- Initial state for the C4 run: one product with 5 units in stock. -/
def c4Db0 : DB := ⟨[], [], [⟨1, "PROD0001", "Widget", 5, 10, 0⟩], 1, 1⟩

/-- C4 run: create a bill (auto identifier `ST1`) holding all 5 units. -/
def c4Req : CreateReq := ⟨"", "auto", "1", "2024-01-01", "Pending", "",
  [⟨1, "Widget", 5, 10, 0, 50, 0, 0, 0, 0, 50⟩]⟩

/-- State after the C4 create: 0 units remain available. -/
def c4Db1 : DB := (create c4Db0 c4Req).1

/-- C4 run: preview (unconfirmed) update of the bill down to 2 units. -/
def c4PrevReq : UpdateReq := ⟨"ST1", "1", "2024-01-01", "Pending", "",
  [⟨1, "Widget", 2, 10, 0, 20, 0, 0, 0, 0, 20⟩], false⟩

/-- Counterexample to C4 as stated: the bill's line items hold 5 units, the
proposed list holds 2, so the true net delta over the union is +3 and the
projected stock 0+3 is nonnegative — yet the preview rejects the update
with `InsufficientStock`, reporting old quantity 0 and projected stock −2,
because it read the old line items under the bill's numeric key and found
none. -/
theorem c4_counterexample_preview_wrong_delta :
    availQty c4Db1 1 = 0 ∧
    ((c4Db1.billing.map (fun b =>
      ((itemsByText c4Db1 b).map (fun r => r.quantity)).sum))) = [5] ∧
    availQty c4Db1 1 + (5 - 2) ≥ 0 ∧
    (update c4Db1 1 c4PrevReq).2 =
      .insufficientPreview [⟨1, 0, 0, 2, -2, -2⟩] := by decide

/-- Whether a `create` outcome is a persisted bill. -/
def CreateOutcome.created : CreateOutcome → Bool
  | .ok _ _ => true
  | _ => false

/-! ### C10 -/

/-- C10: line-item rows written by `create` carry the bill's external text
identifier (as stored by the INTEGER-affinity column) in their `bill_id`
column, whereas `cancel_bills` and `update` look a bill's line items up by
its internal numeric key.  Hence for every bill created by `create` whose
text identifier differs (as a stored column value) from its numeric key —
e.g. every auto-generated `ST…` identifier — the numeric-key lookup used by
`cancel_bills` and `update` finds no rows, `cancel_bills` restores zero
inventory for the bill, and a committed update observes an empty old-item
set.  (The hypothesis on `db.billing_items` rules out pre-existing orphan
rows under the fresh numeric key.) -/
theorem c10_create_cancel_key_mismatch (db : DB) (req : CreateReq)
    (bill : BillRow) (rows : List ItemRow)
    (hok : (create db req).2 = .ok bill rows)
    (hmis : canonical bill.bill_id ≠ .int (bill.id : Int))
    (hnoorphan : ∀ r ∈ db.billing_items,
      r.bill_id ≠ .int (db.nextBillKey : Int)) :
    (∀ r ∈ rows, r.bill_id = canonical bill.bill_id) ∧
    itemsByKey (create db req).1 bill.id = [] ∧
    (cancel_bills (create db req).1 [bill.id]).inventory =
      ((create db req).1).inventory := by
  obtain ⟨hid, _, _, _, hrows, _, hfst⟩ := create_ok_spec db req bill rows hok
  have hrows_key : ∀ r ∈ rows, r.bill_id = canonical bill.bill_id := by
    rw [hrows]
    exact mkRows_bill_id _ _ _
  have hempty : itemsByKey (create db req).1 bill.id = [] := by
    rw [hfst, itemsByKey]
    rw [List.filter_append]
    have h1 : db.billing_items.filter
        (fun r => r.bill_id == ColVal.int (bill.id : Int)) = [] := by
      rw [List.filter_eq_nil_iff]
      intro r hr
      simp only [beq_iff_eq]
      rw [hid]
      exact hnoorphan r hr
    have h2 : rows.filter
        (fun r => r.bill_id == ColVal.int (bill.id : Int)) = [] := by
      rw [List.filter_eq_nil_iff]
      intro r hr
      simp only [beq_iff_eq]
      rw [hrows_key r hr]
      exact hmis
    rw [h1, h2]
    rfl
  refine ⟨hrows_key, hempty, ?_⟩
  have hne : ([bill.id] : List Nat) ≠ [] := by simp
  rw [cancel_bills, if_neg hne]
  have hfold : ([bill.id].foldl cancelOne ((create db req).1)) =
      cancelOne ((create db req).1) bill.id := rfl
  simp only [hfold, cancelOne, hempty]
  rfl

/-- Initial state for the C10 witness run. -/
def c10Db0 : DB := ⟨[], [], [⟨1, "PROD0001", "Widget", 5, 10, 18⟩], 1, 1⟩

/-- C10 witness request: auto-mode create of 2 units (identifier `ST1`). -/
def c10Req : CreateReq := ⟨"", "auto", "1", "2024-01-01", "Pending", "",
  [⟨1, "Widget", 2, 10, 18, 20, 0, 0, 0, 0, 20⟩]⟩

/-- Concrete run of C10: the bill created with auto identifier `ST1` and
numeric key 1 has no rows under the numeric key, and cancelling it leaves
the inventory untouched. -/
theorem c10_create_cancel_key_mismatch_witness :
    itemsByKey (create c10Db0 c10Req).1 1 = [] ∧
    (cancel_bills (create c10Db0 c10Req).1 [1]).inventory =
      ((create c10Db0 c10Req).1).inventory := by
  have hcre : (create c10Db0 c10Req).2.created = true := by decide
  cases hc : (create c10Db0 c10Req).2
  case ok bill rows =>
    obtain ⟨hid, _, _, _, _, hbid, _⟩ := create_ok_spec c10Db0 c10Req bill rows hc
    have hbid' : bill.bill_id = "ST1" := by
      rw [hbid]
      decide
    have hid' : bill.id = 1 := hid
    have := c10_create_cancel_key_mismatch c10Db0 c10Req bill rows hc
      (by rw [hbid', hid']; decide) (by decide)
    rw [hid'] at this
    exact ⟨this.2.1, this.2.2⟩
  all_goals rw [hc] at hcre
  all_goals simp [CreateOutcome.created] at hcre

/-- C3 amended: for every active bill whose line items are stored under its
numeric key (as the rows written by a previous committed update are), all
referencing one product `P` and totalling `q_old`, a confirmed update to a
non-empty item list for the same product totalling `q_new < q_old` commits,
and `P`'s available quantity afterwards equals its quantity before plus
`q_old - q_new` (in particular 5 down to 2 frees 3 net). -/
theorem c3_update_frees_net_delta (db : DB) (k : Nat) (req : UpdateReq)
    (current : BillRow) (P : Nat) (prod : Product)
    (hfind : db.billing.find? (fun b => b.id == k) = some current)
    (hconfirm : req.confirm_update = true)
    (hbid : pyStrip req.bill_id = current.bill_id)
    (hcust : req.customer_id ≠ "") (hdate : req.bill_date ≠ "")
    (hitems : req.items ≠ [])
    (holdP : ∀ r ∈ itemsByKey db k, r.product_id = P)
    (hnewP : ∀ it ∈ req.items, it.product_id = P)
    (hprod : findP db.inventory P = some prod) (hq : 0 ≤ prod.quantity)
    (hlt : (req.items.map (fun it => it.quantity)).sum <
      ((itemsByKey db k).map (fun r => r.quantity)).sum) :
    (update db k req).2.committed = true ∧
    availQty (update db k req).1 P =
      availQty db P + (((itemsByKey db k).map (fun r => r.quantity)).sum -
        (req.items.map (fun it => it.quantity)).sum) := by
  have hsome : (findP db.inventory P).isSome := by rw [hprod]; rfl
  have hrest := availOf_restoreItems_allP (itemsByKey db k) P db.inventory
    holdP hsome
  have hgroup : groupInputs req.items =
      [(P, (req.items.map (fun it => it.quantity)).sum)] := by
    rw [groupInputs, groupPairs_allP _ P
      (by simpa using hitems)
      (by intro e he
          obtain ⟨it, hit, rfl⟩ := List.mem_map.mp he
          exact hnewP it hit)]
    simp [Function.comp_def]
  have hchk : checkStock (restoreItems db.inventory (itemsByKey db k))
      (groupInputs req.items) = none := by
    rw [hgroup]
    apply checkStock_none
    intro e he
    rcases List.mem_singleton.mp he with rfl
    obtain ⟨prod1, hf1⟩ := Option.isSome_iff_exists.mp hrest.2
    refine ⟨prod1, hf1, ?_⟩
    have : availOf (restoreItems db.inventory (itemsByKey db k)) P =
        prod1.quantity := by simp [availOf, hf1]
    have havail : availOf db.inventory P = prod.quantity := by
      simp [availOf, hprod]
    rw [hrest.1, havail] at this
    simp only
    omega
  have hcond1 : ¬ (pyStrip req.bill_id ≠ current.bill_id ∧
      (db.billing.any
        (fun b => b.bill_id == pyStrip req.bill_id && !(b.id == k))) = true) := by
    rintro ⟨ha, _⟩
    exact ha hbid
  have hcond2 : ¬ (req.customer_id = "" ∨ req.bill_date = "") := by
    rintro (h | h)
    · exact hcust h
    · exact hdate h
  have hcond4 : ¬ ¬ req.confirm_update = true := by simp [hconfirm]
  have hupd : update db k req =
      (⟨db.billing.map (fun b => if b.id = k then
          ⟨current.id, pyStrip req.bill_id, req.customer_id, req.bill_date,
            (req.items.map (fun it => (it.quantity : Rat) * it.unit_price)).sum,
            (req.items.map (fun it => it.gst_amount)).sum,
            (req.items.map (fun it => it.total)).sum,
            req.payment_status, req.notes⟩ else b),
        (applyItemWrites db.billing_items
            (((itemsByKey db k).map (fun r => r.id)).zip req.items)).filter
          (fun r => !((((itemsByKey db k).map (fun r => r.id)).drop
              req.items.length).contains r.id)) ++
          mkRows db.nextItemKey (.int (k : Int))
            (req.items.drop ((itemsByKey db k).map (fun r => r.id)).length),
        deductInputs (restoreItems db.inventory (itemsByKey db k)) req.items,
        db.nextBillKey,
        db.nextItemKey + (mkRows db.nextItemKey (.int (k : Int))
          (req.items.drop
            ((itemsByKey db k).map (fun r => r.id)).length)).length⟩,
       .ok ⟨current.id, pyStrip req.bill_id, req.customer_id, req.bill_date,
          (req.items.map (fun it => (it.quantity : Rat) * it.unit_price)).sum,
          (req.items.map (fun it => it.gst_amount)).sum,
          (req.items.map (fun it => it.total)).sum,
          req.payment_status, req.notes⟩) := by
    simp only [update, hfind]
    rw [if_neg hcond1, if_neg hcond2, if_neg (by exact hitems), if_neg hcond4,
      hchk]
  have hded := availOf_deductInputs_allP req.items P
    (restoreItems db.inventory (itemsByKey db k)) hnewP hrest.2
  constructor
  · rw [hupd]
    rfl
  · show availOf (update db k req).1.inventory P = _
    rw [hupd]
    simp only
    rw [hded.1, hrest.1]
    show _ = availOf db.inventory P + _
    ring

/-- Hand-rolled state for the C3 witness: a bill (numeric key 1) whose line
items are stored under the numeric key (as a previous committed update
stores them), holding 5 units of product 1, with 2 units still available. -/
def c3wDb : DB :=
  ⟨[⟨1, "B7", "1", "2024-01-01", 50, 0, 50, "Pending", ""⟩],
   [⟨1, .int 1, 1, "Widget", 5, 10, 0, 0, 0, 0, 0, 50⟩],
   [⟨1, "PROD0001", "Widget", 2, 10, 0⟩], 2, 2⟩

/-- C3 witness request: confirmed update of the bill down to 2 units. -/
def c3wReq : UpdateReq := ⟨"B7", "1", "2024-01-01", "Pending", "",
  [⟨1, "Widget", 2, 10, 0, 20, 0, 0, 0, 0, 20⟩], true⟩

/-- Concrete run of the amended C3: updating the (numeric-keyed) bill from 5
units down to 2 commits and raises available stock by the net delta 3. -/
theorem c3_update_frees_net_delta_witness :
    (update c3wDb 1 c3wReq).2.committed = true ∧
    availQty (update c3wDb 1 c3wReq).1 1 =
      availQty c3wDb 1 + (((itemsByKey c3wDb 1).map (fun r => r.quantity)).sum -
        (c3wReq.items.map (fun it => it.quantity)).sum) :=
  c3_update_frees_net_delta c3wDb 1 c3wReq
    ⟨1, "B7", "1", "2024-01-01", 50, 0, 50, "Pending", ""⟩ 1
    ⟨1, "PROD0001", "Widget", 2, 10, 0⟩
    (by decide) rfl (by decide) (by decide) (by decide) (by decide)
    (by decide) (by decide) (by decide) (by decide) (by decide)

/-! ### Preview-phase lemmas -/

theorem mem_unionKeys (a b : List (Nat × Int)) (p : Nat) :
    p ∈ unionKeys a b ↔
      p ∈ a.map (fun e => e.1) ∨ p ∈ b.map (fun e => e.1) := by
  constructor
  · intro h
    rcases List.mem_append.mp h with h1 | h1
    · exact Or.inl h1
    · exact Or.inr (List.mem_filter.mp h1).1
  · rintro (h | h)
    · exact List.mem_append.mpr (Or.inl h)
    · by_cases ha : p ∈ a.map (fun e => e.1)
      · exact List.mem_append.mpr (Or.inl ha)
      · refine List.mem_append.mpr (Or.inr (List.mem_filter.mpr ⟨h, ?_⟩))
        simp only [Bool.not_eq_true']
        rw [List.any_eq_false]
        intro e he
        simp only [beq_iff_eq]
        intro hc
        exact ha (List.mem_map.mpr ⟨e, he, hc⟩)

/-- Every entry of the preview list records the grouped old and new
quantities of its product, the current availability, the net change, and
the projected stock; its net change is non-zero and its product occurs in
the old or the new items. -/
theorem previewChanges_mem (db : DB) (olds : List ItemRow)
    (items : List ItemInput) (c : InvChange)
    (hc : c ∈ previewChanges db olds items) :
    ((∃ r ∈ olds, r.product_id = c.product_id) ∨
      (∃ it ∈ items, it.product_id = c.product_id)) ∧
    c.old_bill_qty = ((olds.filter
      (fun r => r.product_id == c.product_id)).map (fun r => r.quantity)).sum ∧
    c.new_bill_qty = ((items.filter
      (fun it => it.product_id == c.product_id)).map
        (fun it => it.quantity)).sum ∧
    c.current_qty = availOf db.inventory c.product_id ∧
    c.net_change = c.old_bill_qty - c.new_bill_qty ∧
    c.new_inventory = c.current_qty + c.net_change ∧
    c.net_change ≠ 0 := by
  simp only [previewChanges, List.mem_filterMap] at hc
  obtain ⟨p, hp, hf⟩ := hc
  by_cases hnet :
      lookupQty (groupRows olds) p - lookupQty (groupInputs items) p = 0
  · rw [if_pos hnet] at hf
    exact absurd hf (by simp)
  · rw [if_neg hnet] at hf
    have hc' := Option.some.inj hf
    subst hc'
    refine ⟨?_, by rw [← groupRows_lookup], by rw [← groupInputs_lookup],
      rfl, rfl, rfl, ?_⟩
    · rcases (mem_unionKeys _ _ p).mp hp with h1 | h1
      · exact Or.inl ((mem_keys_groupRows olds p).mp h1)
      · exact Or.inr ((mem_keys_groupInputs items p).mp h1)
    · exact hnet

/-- Every product of the union of old and new line items whose grouped old
and new quantities differ is listed in the preview. -/
theorem previewChanges_covers (db : DB) (olds : List ItemRow)
    (items : List ItemInput) (p : Nat)
    (hmem : (∃ r ∈ olds, r.product_id = p) ∨
      (∃ it ∈ items, it.product_id = p))
    (hne : ((olds.filter (fun r => r.product_id == p)).map
        (fun r => r.quantity)).sum ≠
      ((items.filter (fun it => it.product_id == p)).map
        (fun it => it.quantity)).sum) :
    ∃ c ∈ previewChanges db olds items, c.product_id = p := by
  have hp : p ∈ unionKeys (groupRows olds) (groupInputs items) := by
    refine (mem_unionKeys _ _ p).mpr ?_
    rcases hmem with h | h
    · exact Or.inl ((mem_keys_groupRows olds p).mpr h)
    · exact Or.inr ((mem_keys_groupInputs items p).mpr h)
  have hnet : lookupQty (groupRows olds) p -
      lookupQty (groupInputs items) p ≠ 0 := by
    rw [groupRows_lookup, groupInputs_lookup]
    exact sub_ne_zero.mpr hne
  exact ⟨_, List.mem_filterMap.mpr ⟨p, hp, by rw [if_neg hnet]⟩, rfl⟩

/-! ### C4 (amended) -/

/-- C4 amended: the update preview phase computes, for each product of the
union of the line items stored under the bill's *numeric key* (the old-item
set the code actually reads — for bills created by `create` this set is
empty, see the counterexample) and the proposed new items, the net delta
`old_qty - new_qty` (quantities summed per product) against the product's
current available quantity; it mutates nothing; it rejects with
`InsufficientStock` exactly when some such product's projected quantity is
negative, naming every offending product; otherwise it returns the preview,
whose entries carry exactly the grouped old/new quantities, current stock,
net change and projection of their product. -/
theorem c4_preview_computes_net_deltas (db : DB) (k : Nat) (req : UpdateReq)
    (current : BillRow)
    (hfind : db.billing.find? (fun b => b.id == k) = some current)
    (hpreview : req.confirm_update = false)
    (hbid : pyStrip req.bill_id = current.bill_id)
    (hcust : req.customer_id ≠ "") (hdate : req.bill_date ≠ "")
    (hitems : req.items ≠ [])
    (hnonneg : ∀ p : Nat, 0 ≤ availQty db p) :
    (update db k req).1 = db ∧
    (∀ c ∈ previewChanges db (itemsByKey db k) req.items,
      c.old_bill_qty = (((itemsByKey db k).filter
        (fun r => r.product_id == c.product_id)).map
          (fun r => r.quantity)).sum ∧
      c.new_bill_qty = ((req.items.filter
        (fun it => it.product_id == c.product_id)).map
          (fun it => it.quantity)).sum ∧
      c.current_qty = availQty db c.product_id ∧
      c.net_change = c.old_bill_qty - c.new_bill_qty ∧
      c.new_inventory = c.current_qty + c.net_change) ∧
    (∀ p : Nat,
      ((∃ r ∈ itemsByKey db k, r.product_id = p) ∨
        (∃ it ∈ req.items, it.product_id = p)) →
      (((itemsByKey db k).filter (fun r => r.product_id == p)).map
        (fun r => r.quantity)).sum ≠
        ((req.items.filter (fun it => it.product_id == p)).map
          (fun it => it.quantity)).sum →
      ∃ c ∈ previewChanges db (itemsByKey db k) req.items,
        c.product_id = p) ∧
    ((∃ p : Nat,
        ((∃ r ∈ itemsByKey db k, r.product_id = p) ∨
          (∃ it ∈ req.items, it.product_id = p)) ∧
        availQty db p +
          ((((itemsByKey db k).filter (fun r => r.product_id == p)).map
            (fun r => r.quantity)).sum -
          ((req.items.filter (fun it => it.product_id == p)).map
            (fun it => it.quantity)).sum) < 0) →
      ∃ offending, (update db k req).2 = .insufficientPreview offending ∧
        ∀ p : Nat,
          ((∃ r ∈ itemsByKey db k, r.product_id = p) ∨
            (∃ it ∈ req.items, it.product_id = p)) →
          availQty db p +
            ((((itemsByKey db k).filter (fun r => r.product_id == p)).map
              (fun r => r.quantity)).sum -
            ((req.items.filter (fun it => it.product_id == p)).map
              (fun it => it.quantity)).sum) < 0 →
          ∃ c ∈ offending, c.product_id = p ∧
            c.new_inventory = availQty db p +
              ((((itemsByKey db k).filter (fun r => r.product_id == p)).map
                (fun r => r.quantity)).sum -
              ((req.items.filter (fun it => it.product_id == p)).map
                (fun it => it.quantity)).sum)) ∧
    ((¬ ∃ p : Nat,
        ((∃ r ∈ itemsByKey db k, r.product_id = p) ∨
          (∃ it ∈ req.items, it.product_id = p)) ∧
        availQty db p +
          ((((itemsByKey db k).filter (fun r => r.product_id == p)).map
            (fun r => r.quantity)).sum -
          ((req.items.filter (fun it => it.product_id == p)).map
            (fun it => it.quantity)).sum) < 0) →
      (update db k req).2 =
        .preview (previewChanges db (itemsByKey db k) req.items)) := by
  have hcond1 : ¬ (pyStrip req.bill_id ≠ current.bill_id ∧
      (db.billing.any
        (fun b => b.bill_id == pyStrip req.bill_id && !(b.id == k))) = true) := by
    rintro ⟨ha, _⟩
    exact ha hbid
  have hcond2 : ¬ (req.customer_id = "" ∨ req.bill_date = "") := by
    rintro (h | h)
    · exact hcust h
    · exact hdate h
  have hprev : ¬ req.confirm_update = true := by simp [hpreview]
  have hupd : update db k req =
      (db, if (previewChanges db (itemsByKey db k) req.items).filter
          (fun c => c.new_inventory < 0) = []
        then .preview (previewChanges db (itemsByKey db k) req.items)
        else .insufficientPreview
          ((previewChanges db (itemsByKey db k) req.items).filter
            (fun c => c.new_inventory < 0))) := by
    simp only [update, hfind]
    rw [if_neg hcond1, if_neg hcond2, if_neg (by exact hitems), if_pos hprev]
    split <;> rfl
  have hprojOf : ∀ c ∈ previewChanges db (itemsByKey db k) req.items,
      c.new_inventory = availQty db c.product_id +
        ((((itemsByKey db k).filter
            (fun r => r.product_id == c.product_id)).map
          (fun r => r.quantity)).sum -
        ((req.items.filter (fun it => it.product_id == c.product_id)).map
          (fun it => it.quantity)).sum) := by
    intro c hc
    obtain ⟨_, h1, h2, h3, h4, h5, _⟩ := previewChanges_mem db _ _ c hc
    rw [h5, h4, h3, h1, h2]
    rfl
  refine ⟨by rw [hupd], ?_, ?_, ?_, ?_⟩
  · intro c hc
    obtain ⟨_, h1, h2, h3, h4, h5, _⟩ := previewChanges_mem db _ _ c hc
    exact ⟨h1, h2, h3, h4, h5⟩
  · intro p hmem hne
    exact previewChanges_covers db _ _ p hmem hne
  · rintro ⟨p, hmem, hbadp⟩
    have hname : ∀ q : Nat,
        ((∃ r ∈ itemsByKey db k, r.product_id = q) ∨
          (∃ it ∈ req.items, it.product_id = q)) →
        availQty db q +
          ((((itemsByKey db k).filter (fun r => r.product_id == q)).map
            (fun r => r.quantity)).sum -
          ((req.items.filter (fun it => it.product_id == q)).map
            (fun it => it.quantity)).sum) < 0 →
        ∃ c ∈ (previewChanges db (itemsByKey db k) req.items).filter
          (fun c => c.new_inventory < 0), c.product_id = q ∧
          c.new_inventory = availQty db q +
            ((((itemsByKey db k).filter (fun r => r.product_id == q)).map
              (fun r => r.quantity)).sum -
            ((req.items.filter (fun it => it.product_id == q)).map
              (fun it => it.quantity)).sum) := by
      intro q hqmem hqbad
      have hqne : (((itemsByKey db k).filter
          (fun r => r.product_id == q)).map (fun r => r.quantity)).sum ≠
          ((req.items.filter (fun it => it.product_id == q)).map
            (fun it => it.quantity)).sum := by
        have := hnonneg q
        intro hc
        rw [hc] at hqbad
        omega
      obtain ⟨c, hc, hcp⟩ := previewChanges_covers db _ _ q hqmem hqne
      have hcinv := hprojOf c hc
      rw [hcp] at hcinv
      refine ⟨c, List.mem_filter.mpr ⟨hc, ?_⟩, hcp, hcinv⟩
      simp only [decide_eq_true_eq]
      rw [hcinv]
      exact hqbad
    obtain ⟨c0, hc0, _, hc0inv⟩ := hname p hmem hbadp
    have hne : (previewChanges db (itemsByKey db k) req.items).filter
        (fun c => c.new_inventory < 0) ≠ [] := by
      intro hnil
      rw [hnil] at hc0
      cases hc0
    refine ⟨_, ?_, hname⟩
    rw [hupd]
    simp only [if_neg hne]
  · intro hnone
    have hnil : (previewChanges db (itemsByKey db k) req.items).filter
        (fun c => c.new_inventory < 0) = [] := by
      rw [List.filter_eq_nil_iff]
      intro c hc
      simp only [decide_eq_true_eq, not_lt]
      by_contra hlt
      push_neg at hlt
      obtain ⟨hmemc, _, _, _, _, _, _⟩ := previewChanges_mem db _ _ c hc
      exact hnone ⟨c.product_id, hmemc, by rw [← hprojOf c hc]; exact hlt⟩
    rw [hupd]
    simp only [if_pos hnil]

/-- State for the C4 witness: a bill (numeric key 1) with numeric-keyed line
items holding 5 units of product 1; 2 units available. -/
def c4wDb : DB :=
  ⟨[⟨1, "B7", "1", "2024-01-01", 50, 0, 50, "Pending", ""⟩],
   [⟨1, .int 1, 1, "Widget", 5, 10, 0, 0, 0, 0, 0, 50⟩],
   [⟨1, "PROD0001", "Widget", 2, 10, 0⟩], 2, 2⟩

/-- C4 witness request: preview of an update down to 2 units. -/
def c4wReq : UpdateReq := ⟨"B7", "1", "2024-01-01", "Pending", "",
  [⟨1, "Widget", 2, 10, 0, 20, 0, 0, 0, 0, 20⟩], false⟩

/-- Concrete run of the amended C4: the preview of updating the
(numeric-keyed) bill from 5 units down to 2 mutates nothing and returns the
preview (projected stock 2 + (5-2) = 5 is nonnegative, so no rejection). -/
theorem c4_preview_computes_net_deltas_witness :
    (update c4wDb 1 c4wReq).1 = c4wDb ∧
    (update c4wDb 1 c4wReq).2 =
      .preview (previewChanges c4wDb (itemsByKey c4wDb 1) c4wReq.items) := by
  have hkey : itemsByKey c4wDb 1 =
      [⟨1, .int 1, 1, "Widget", 5, 10, 0, 0, 0, 0, 0, 50⟩] := by decide
  have hnn : ∀ p : Nat, 0 ≤ availQty c4wDb p := by
    intro p
    by_cases hp : p = 1
    · subst hp
      decide
    · have h1 : ((1 : Nat) == p) = false := by
        simp only [beq_eq_false_iff_ne, ne_eq]
        exact fun hc => hp hc.symm
      simp [availQty, availOf, findP, List.find?, c4wDb, h1]
  have h := c4_preview_computes_net_deltas c4wDb 1 c4wReq
    ⟨1, "B7", "1", "2024-01-01", 50, 0, 50, "Pending", ""⟩
    (by decide) rfl (by decide) (by decide) (by decide) (by decide) hnn
  refine ⟨h.1, h.2.2.2.2 ?_⟩
  rintro ⟨p, hmem, hbad⟩
  have hp1 : p = 1 := by
    rcases hmem with ⟨r, hr, hrp⟩ | ⟨it, hit, hitp⟩
    · rw [hkey] at hr
      rcases List.mem_singleton.mp hr with rfl
      exact hrp.symm ▸ rfl
    · rcases List.mem_singleton.mp hit with rfl
      exact hitp.symm ▸ rfl
  subst hp1
  rw [hkey] at hbad
  revert hbad
  decide

/-! ### C9 -/

/-- State for the C9 counterexample: exactly what `create` persists from an
empty store for a bill `ST1` (numeric key 1) of 5 units of product 1 at unit
price 1 — line items keyed by the text identifier. -/
def c9Db : DB :=
  ⟨[⟨1, "ST1", "1", "2024-01-01", 5, 0, 5, "Pending", ""⟩],
   [⟨1, .text "ST1", 1, "Widget", 5, 1, 0, 0, 0, 0, 0, 5⟩],
   [⟨1, "PROD0001", "Widget", 5, 1, 0⟩], 2, 2⟩

/-- C9 counterexample request: confirmed update of bill 1 down to 2 units. -/
def c9UpdReq : UpdateReq := ⟨"ST1", "1", "2024-01-01", "Pending", "",
  [⟨1, "Widget", 2, 1, 0, 2, 0, 0, 0, 0, 2⟩], true⟩

/-- Counterexample to C9 as stated: after a committed update of the
`create`-persisted bill `ST1` from 5 units down to 2, the header records
subtotal 2, but the line items reached through the bill's external
identifier — the rows `view`, `print` and the export read — still sum to
5 units × price 1 = 5: the update wrote the new rows under the numeric key
and left the old text-keyed rows in place. -/
theorem c9_counterexample_stale_text_items :
    (update c9Db 1 c9UpdReq).2.committed = true ∧
    ((update c9Db 1 c9UpdReq).1.billing.map (fun b => b.subtotal)) = [2] ∧
    ((update c9Db 1 c9UpdReq).1.billing.map (fun b =>
      ((itemsByText (update c9Db 1 c9UpdReq).1 b).map
        (fun r => (r.quantity : Rat) * r.unit_price)).sum)) = [5] ∧
    ¬ (([2] : List Rat) = [5]) := by
  have hcom : (update c9Db 1 c9UpdReq).2.committed = true := by decide
  cases hsnd : (update c9Db 1 c9UpdReq).2
  case ok bill' =>
    obtain ⟨hb, _, _, _, hfst⟩ := update_ok_spec c9Db 1 c9UpdReq
      ⟨1, "ST1", "1", "2024-01-01", 5, 0, 5, "Pending", ""⟩ bill'
      (by decide) hsnd
    have hbid : bill'.bill_id = "ST1" := by
      rw [hb]
      decide
    have hbills : (update c9Db 1 c9UpdReq).1.billing = [bill'] := by
      rw [hfst]
      simp [c9Db]
    have hsub : bill'.subtotal = 2 := by
      rw [hb]
      show (c9UpdReq.items.map
        (fun it => (it.quantity : Rat) * it.unit_price)).sum = 2
      norm_num [c9UpdReq]
    have hrows : (update c9Db 1 c9UpdReq).1.billing_items =
        [⟨1, .text "ST1", 1, "Widget", 5, 1, 0, 0, 0, 0, 0, 5⟩,
         ⟨2, .int 1, 1, "Widget", 2, 1, 0, 0, 0, 0, 0, 2⟩] := by
      rw [hfst]
      rfl
    have htext : itemsByText (update c9Db 1 c9UpdReq).1 bill' =
        [⟨1, .text "ST1", 1, "Widget", 5, 1, 0, 0, 0, 0, 0, 5⟩] := by
      rw [itemsByText, hrows, hbid]
      decide
    refine ⟨hcom, ?_, ?_, by norm_num⟩
    · rw [hbills]
      simp [hsub]
    · rw [hbills]
      simp only [List.map_cons, List.map_nil, htext]
      norm_num
  all_goals rw [hsnd] at hcom
  all_goals simp [UpdateOutcome.committed] at hcom

/-- C9 amended: a bill's persisted totals equal the corresponding sums over
the line items *written by the operation* — at create, the inserted rows
(the subtotal uses the posted per-item subtotal fields, which equal
`quantity × unit price` whenever the client sends consistent items); after a
committed update, the posted items whose contents are written under the
numeric key — but not necessarily over the rows later reached through the
bill's external identifier (see the counterexample). -/
theorem c9_totals_match_written_items :
    (∀ (db : DB) (req : CreateReq) (bill : BillRow) (rows : List ItemRow),
      (create db req).2 = .ok bill rows →
      bill.subtotal = (req.items.map (fun it => it.subtotal)).sum ∧
      bill.gst_amount = (rows.map (fun r => r.gst_amount)).sum ∧
      bill.total_amount = (rows.map (fun r => r.total)).sum ∧
      ((∀ it ∈ req.items, it.subtotal = (it.quantity : Rat) * it.unit_price) →
        bill.subtotal =
          (rows.map (fun r => (r.quantity : Rat) * r.unit_price)).sum)) ∧
    (∀ (db : DB) (k : Nat) (req : UpdateReq) (current bill' : BillRow),
      db.billing.find? (fun b => b.id == k) = some current →
      (update db k req).2 = .ok bill' →
      bill'.subtotal =
        (req.items.map (fun it => (it.quantity : Rat) * it.unit_price)).sum ∧
      bill'.gst_amount = (req.items.map (fun it => it.gst_amount)).sum ∧
      bill'.total_amount = (req.items.map (fun it => it.total)).sum) := by
  constructor
  · intro db req bill rows h
    obtain ⟨_, hsub, hgst, htot, hrows, _, _⟩ := create_ok_spec db req bill rows h
    have hmapg : rows.map (fun r => r.gst_amount) =
        req.items.map (fun it => it.gst_amount) := by
      rw [hrows]
      exact mkRows_map _ _ (fun _ _ _ => rfl) _ _ _
    have hmapt : rows.map (fun r => r.total) =
        req.items.map (fun it => it.total) := by
      rw [hrows]
      exact mkRows_map _ _ (fun _ _ _ => rfl) _ _ _
    have hmapqp : rows.map (fun r => (r.quantity : Rat) * r.unit_price) =
        req.items.map (fun it => (it.quantity : Rat) * it.unit_price) := by
      rw [hrows]
      exact mkRows_map _ _ (fun _ _ _ => rfl) _ _ _
    refine ⟨hsub, by rw [hmapg]; exact hgst, by rw [hmapt]; exact htot, ?_⟩
    intro hwf
    rw [hmapqp, hsub]
    congr 1
    exact List.map_congr_left hwf
  · intro db k req current bill' hfind h
    obtain ⟨hb, _, _, _, _⟩ := update_ok_spec db k req current bill' hfind h
    rw [hb]
    exact ⟨rfl, rfl, rfl⟩

/-- State for the C9 witness: a bill (numeric key 1) holding 5 units of
product 1 at price 1, with 2 units available. -/
def c9wDb : DB :=
  ⟨[⟨1, "B7", "1", "2024-01-01", 5, 0, 5, "Pending", ""⟩],
   [⟨1, .int 1, 1, "Widget", 5, 1, 0, 0, 0, 0, 0, 5⟩],
   [⟨1, "PROD0001", "Widget", 2, 1, 0⟩], 2, 2⟩

/-- C9 witness request: confirmed update of bill 1 down to 2 units at unit
price 1. -/
def c9wReq : UpdateReq := ⟨"B7", "1", "2024-01-01", "Pending", "",
  [⟨1, "Widget", 2, 1, 0, 2, 0, 0, 0, 0, 2⟩], true⟩

/-- Concrete run of the amended C9: after the committed update the persisted
header subtotal equals 2 × 1 = 2, the sum over the written items. -/
theorem c9_totals_match_written_items_witness :
    ((update c9wDb 1 c9wReq).1.billing.map (fun b => b.subtotal)) = [2] := by
  have hcom : (update c9wDb 1 c9wReq).2.committed = true := by decide
  cases hsnd : (update c9wDb 1 c9wReq).2
  case ok bill' =>
    obtain ⟨hsub, _, _⟩ := c9_totals_match_written_items.2 c9wDb 1 c9wReq
      ⟨1, "B7", "1", "2024-01-01", 5, 0, 5, "Pending", ""⟩ bill'
      (by decide) hsnd
    obtain ⟨_, _, _, _, hfst⟩ := update_ok_spec c9wDb 1 c9wReq
      ⟨1, "B7", "1", "2024-01-01", 5, 0, 5, "Pending", ""⟩ bill'
      (by decide) hsnd
    have hbills : (update c9wDb 1 c9wReq).1.billing = [bill'] := by
      rw [hfst]
      simp [c9wDb]
    rw [hbills]
    simp only [List.map_cons, List.map_nil, hsub]
    norm_num [c9wReq]
  all_goals rw [hsnd] at hcom
  all_goals simp [UpdateOutcome.committed] at hcom

/-! ### Store invariants and identifier allocation (C8 infrastructure) -/

/-- Well-formedness of the persisted store: internal keys are pairwise
distinct and below the AUTOINCREMENT counter, and bill identifiers are
pairwise distinct (the `billing.bill_id TEXT UNIQUE` schema constraint). -/
def StoreInv (db : DB) : Prop :=
  (db.billing.map (fun b => b.id)).Nodup ∧
  (db.billing.map (fun b => b.bill_id)).Nodup ∧
  ∀ b ∈ db.billing, b.id < db.nextBillKey

/-- `create` either leaves the state unchanged or commits a bill. -/
theorem create_fst_cases (db : DB) (req : CreateReq) :
    (create db req).1 = db ∨
    ∃ bill rows, (create db req).2 = .ok bill rows := by
  simp only [create]
  repeat' split
  all_goals first
    | exact Or.inl rfl
    | exact Or.inr ⟨_, _, rfl⟩

/-- `update` either leaves the state unchanged or commits against the found
bill row. -/
theorem update_fst_cases (db : DB) (k : Nat) (req : UpdateReq) :
    (update db k req).1 = db ∨
    ∃ current bill',
      db.billing.find? (fun b => b.id == k) = some current ∧
      (update db k req).2 = .ok bill' := by
  rcases hfind : db.billing.find? (fun b => b.id == k) with _ | current
  · left
    simp only [update, hfind]
  · simp only [update, hfind]
    repeat' split
    all_goals first
      | exact Or.inl rfl
      | exact Or.inr ⟨current, _, rfl, rfl⟩

/-- The billing table and the bill-key counter are untouched by the
inventory-restoring fold of `cancel_bills`. -/
theorem cancel_fold_billing (ks : List Nat) : ∀ db : DB,
    (ks.foldl cancelOne db).billing = db.billing ∧
    (ks.foldl cancelOne db).nextBillKey = db.nextBillKey := by
  induction ks with
  | nil => exact fun db => ⟨rfl, rfl⟩
  | cons k rest ih => exact fun db => ih (cancelOne db k)

/-- Any property preserved by the last-bill fold step holds of its result. -/
theorem lastBill_fold_prop (P : BillRow → Prop) (l : List BillRow) :
    ∀ acc : Option BillRow, (∀ b ∈ l, P b) → (∀ a, acc = some a → P a) →
      ∀ a, l.foldl (fun acc b =>
        match acc with
        | none => some b
        | some a => if a.id ≤ b.id then some b else some a) acc = some a →
        P a := by
  induction l with
  | nil => exact fun acc _ hacc a ha => hacc a ha
  | cons x rest ih =>
    intro acc hall hacc a ha
    refine ih _ (fun b hb => hall b (by simp [hb])) ?_ a ha
    intro a' ha'
    cases acc with
    | none =>
      change some x = some a' at ha'
      cases ha'
      exact hall x (by simp)
    | some y =>
      change (if y.id ≤ x.id then some x else some y) = some a' at ha'
      by_cases hy : y.id ≤ x.id
      · rw [if_pos hy] at ha'
        cases ha'
        exact hall x (by simp)
      · rw [if_neg hy] at ha'
        cases ha'
        exact hacc _ rfl

/-- Appending a bill with a strictly larger key makes it the last bill. -/
theorem lastBill_append (bills : List BillRow) (bill : BillRow)
    (h : ∀ b ∈ bills, b.id < bill.id) (db : DB)
    (hdb : db.billing = bills ++ [bill]) :
    lastBill db = some bill := by
  rw [lastBill, hdb, List.foldl_append]
  rcases hfold : bills.foldl (fun acc b =>
      match acc with
      | none => some b
      | some a => if a.id ≤ b.id then some b else some a) none with _ | a
  · rw [hfold]
    rfl
  · rw [hfold]
    have ha : a.id < bill.id := by
      refine lastBill_fold_prop (fun x => x.id < bill.id) bills none h ?_ a hfold
      intro x hx
      cases hx
    simp [le_of_lt ha]

/-- Dropping the two-character prefix recovers the rendered suffix. -/
theorem dropChars_ST (s : String) : dropChars ("ST" ++ s) 2 = s := rfl

/-- The auto-generated identifier is never the empty string. -/
theorem mkSTId_ne_empty (n : Int) : ("ST" ++ intRepr n) ≠ "" := by
  intro hc
  have hd : ("ST" ++ intRepr n).data = 'S' :: 'T' :: (intRepr n).data := rfl
  rw [hc] at hd
  cases hd

/-- The allocator's next suffix after a last bill `ST<n>` is `n + 1`:
the rendered suffix is parsed back exactly. -/
theorem nextAutoNum_of_lastBill (db : DB) (b : BillRow) (n : Int)
    (hlast : lastBill db = some b) (hbid : b.bill_id = "ST" ++ intRepr n) :
    nextAutoNum db = n + 1 := by
  have hne : b.bill_id ≠ "" := by
    rw [hbid]
    exact mkSTId_ne_empty n
  simp only [nextAutoNum, hlast, if_pos hne, hbid, dropChars_ST,
    intLit?_intRepr]
  rw [if_pos (mkSTId_ne_empty n)]

/-- Absence of any bill starts the numbering at 1. -/
theorem nextAutoNum_of_empty (db : DB) (hlast : lastBill db = none) :
    nextAutoNum db = 1 := by
  simp only [nextAutoNum, hlast]

/-- A parse failure on the last identifier's suffix restarts at 1. -/
theorem nextAutoNum_of_parse_failure (db : DB) (b : BillRow)
    (hlast : lastBill db = some b) (hne : b.bill_id ≠ "")
    (hparse : intLit? (dropChars b.bill_id 2) = none) :
    nextAutoNum db = 1 := by
  simp only [nextAutoNum, hlast, if_pos hne, hparse]

/-- Replacing the (unique) bill with internal key `k` by a bill whose
identifier no other bill carries preserves distinctness of identifiers. -/
theorem nodup_map_replace (l : List BillRow) (k : Nat) (bill' : BillRow)
    (hids : (l.map (fun b => b.id)).Nodup)
    (hbids : (l.map (fun b => b.bill_id)).Nodup)
    (hfresh : ∀ b ∈ l, b.id ≠ k → b.bill_id ≠ bill'.bill_id) :
    ((l.map (fun b => if b.id = k then bill' else b)).map
      (fun b => b.bill_id)).Nodup := by
  induction l with
  | nil => simp
  | cons x rest ih =>
    simp only [List.map_cons, List.nodup_cons] at hids hbids ⊢
    by_cases hxk : x.id = k
    · rw [if_pos hxk]
      have hrest_id : ∀ b ∈ rest, b.id ≠ k := by
        intro b hbmem hc
        exact hids.1 (List.mem_map.mpr ⟨b, hbmem, hc.trans hxk.symm⟩)
      have hmapeq : rest.map (fun b => if b.id = k then bill' else b) = rest :=
        calc rest.map (fun b => if b.id = k then bill' else b)
            = rest.map id := List.map_congr_left (fun b hb => by
                rw [if_neg (hrest_id b hb)]; rfl)
          _ = rest := List.map_id rest
      rw [hmapeq]
      refine ⟨fun hc => ?_, hbids.2⟩
      obtain ⟨b, hbmem, hbeq⟩ := List.mem_map.mp hc
      exact hfresh b (by simp [hbmem]) (hrest_id b hbmem) hbeq
    · rw [if_neg hxk]
      refine ⟨?_, ih hids.2 hbids.2 (fun b hb => hfresh b (by simp [hb]))⟩
      intro hc
      obtain ⟨b, hbmem, hbeq⟩ := List.mem_map.mp hc
      obtain ⟨b0, hb0mem, hb0eq⟩ := List.mem_map.mp hbmem
      by_cases hb0k : b0.id = k
      · rw [← hb0eq, if_pos hb0k] at hbeq
        exact hfresh x (by simp) hxk hbeq.symm
      · rw [← hb0eq, if_neg hb0k] at hbeq
        exact hbids.1 (List.mem_map.mpr ⟨b0, hb0mem, hbeq⟩)

/-- `create` preserves the store invariant: the committed key is the fresh
AUTOINCREMENT value and the committed identifier passed the uniqueness
checks. -/
theorem storeInv_create (db : DB) (req : CreateReq) (h : StoreInv db) :
    StoreInv (create db req).1 := by
  rcases create_fst_cases db req with hc | ⟨bill, rows, hok⟩
  · rw [hc]
    exact h
  · obtain ⟨hid, _, _, _, _, _, hfst⟩ := create_ok_spec db req bill rows hok
    have hfresh := create_ok_fresh db req bill rows hok
    obtain ⟨h1, h2, h3⟩ := h
    rw [hfst]
    refine ⟨?_, ?_, ?_⟩
    · show ((db.billing ++ [bill]).map (fun b => b.id)).Nodup
      rw [List.map_append, List.nodup_append]
      refine ⟨h1, by simp, fun x hx hx2 => ?_⟩
      have hxe : x = bill.id := by simpa using hx2
      obtain ⟨b, hb, hbid⟩ := List.mem_map.mp hx
      have hlt := h3 b hb
      rw [hbid, hxe, hid] at hlt
      exact lt_irrefl _ hlt
    · show ((db.billing ++ [bill]).map (fun b => b.bill_id)).Nodup
      rw [List.map_append, List.nodup_append]
      refine ⟨h2, by simp, fun x hx hx2 => ?_⟩
      have hxe : x = bill.bill_id := by simpa using hx2
      obtain ⟨b, hb, hbid⟩ := List.mem_map.mp hx
      exact hfresh b hb (hbid.trans hxe)
    · intro b hb
      rcases List.mem_append.mp hb with hmem | hmem
      · have := h3 b hmem
        show b.id < db.nextBillKey + 1
        omega
      · have hbe : b = bill := by simpa using hmem
        rw [hbe, hid]
        show db.nextBillKey < db.nextBillKey + 1
        omega

/-- `update` preserves the store invariant: it overwrites only the bill with
key `k`, and a changed identifier passed the explicit uniqueness check. -/
theorem storeInv_update (db : DB) (k : Nat) (req : UpdateReq)
    (h : StoreInv db) : StoreInv (update db k req).1 := by
  rcases update_fst_cases db k req with hc | ⟨current, bill', hfind, hok⟩
  · rw [hc]
    exact h
  · obtain ⟨hb, _, hdup, _, hfst⟩ := update_ok_spec db k req current bill' hfind hok
    obtain ⟨h1, h2, h3⟩ := h
    have hcur_mem : current ∈ db.billing := List.mem_of_find?_eq_some hfind
    have hcur_id : current.id = k := by
      simpa [beq_iff_eq] using List.find?_some hfind
    have hbid' : bill'.id = k := by
      rw [hb]
      exact hcur_id
    have hbbid : bill'.bill_id = pyStrip req.bill_id := by rw [hb]
    have hfresh : ∀ b ∈ db.billing, b.id ≠ k → b.bill_id ≠ bill'.bill_id := by
      rcases hdup with hsame | hnone
      · intro b hbmem hbk hcontra
        rw [hbbid, hsame] at hcontra
        have hbe : b = current :=
          List.inj_on_of_nodup_map h2 hbmem hcur_mem hcontra
        rw [hbe] at hbk
        exact hbk hcur_id
      · intro b hbmem hbk hcontra
        refine hnone (List.any_eq_true.mpr ⟨b, hbmem, ?_⟩)
        rw [hcontra, hbbid]
        simp [beq_iff_eq, hbk]
    have hidmap : ((db.billing.map (fun b => if b.id = k then bill' else b)).map
        (fun b => b.id)) = db.billing.map (fun b => b.id) := by
      rw [List.map_map]
      refine List.map_congr_left (fun b _ => ?_)
      by_cases hbk : b.id = k
      · simp [hbk, hbid']
      · simp [hbk]
    rw [hfst]
    refine ⟨?_, ?_, ?_⟩
    · show ((db.billing.map (fun b => if b.id = k then bill' else b)).map
        (fun b => b.id)).Nodup
      rw [hidmap]
      exact h1
    · show ((db.billing.map (fun b => if b.id = k then bill' else b)).map
        (fun b => b.bill_id)).Nodup
      exact nodup_map_replace db.billing k bill' h1 h2 hfresh
    · intro b hbm
      have hbm' : b ∈ db.billing.map
          (fun b => if b.id = k then bill' else b) := hbm
      obtain ⟨b0, hb0mem, hb0eq⟩ := List.mem_map.mp hbm'
      show b.id < db.nextBillKey
      by_cases hb0k : b0.id = k
      · rw [← hb0eq, if_pos hb0k, hbid']
        have := h3 current hcur_mem
        rw [hcur_id] at this
        exact this
      · rw [← hb0eq, if_neg hb0k]
        exact h3 b0 hb0mem

/-- `cancel_bills` preserves the store invariant: it only rewrites the
status column. -/
theorem storeInv_cancel (db : DB) (ks : List Nat) (h : StoreInv db) :
    StoreInv (cancel_bills db ks) := by
  by_cases hks : ks = []
  · rw [cancel_bills, if_pos hks]
    exact h
  · rw [cancel_bills, if_neg hks]
    obtain ⟨hbb, hbk⟩ := cancel_fold_billing ks db
    obtain ⟨h1, h2, h3⟩ := h
    refine ⟨?_, ?_, ?_⟩
    · show (((ks.foldl cancelOne db).billing.map (fun b =>
        if b.id ∈ ks then { b with payment_status := "Cancelled" } else b)).map
        (fun b => b.id)).Nodup
      rw [hbb, List.map_map]
      have : db.billing.map ((fun b => b.id) ∘ (fun b =>
          if b.id ∈ ks then { b with payment_status := "Cancelled" } else b)) =
          db.billing.map (fun b => b.id) :=
        List.map_congr_left (fun b _ => by
          by_cases hbk' : b.id ∈ ks <;> simp [hbk'])
      rw [this]
      exact h1
    · show (((ks.foldl cancelOne db).billing.map (fun b =>
        if b.id ∈ ks then { b with payment_status := "Cancelled" } else b)).map
        (fun b => b.bill_id)).Nodup
      rw [hbb, List.map_map]
      have : db.billing.map ((fun b => b.bill_id) ∘ (fun b =>
          if b.id ∈ ks then { b with payment_status := "Cancelled" } else b)) =
          db.billing.map (fun b => b.bill_id) :=
        List.map_congr_left (fun b _ => by
          by_cases hbk' : b.id ∈ ks <;> simp [hbk'])
      rw [this]
      exact h2
    · intro b hbm
      show b.id < (ks.foldl cancelOne db).nextBillKey
      rw [hbk]
      have hbm' : b ∈ (ks.foldl cancelOne db).billing.map (fun b =>
          if b.id ∈ ks then { b with payment_status := "Cancelled" } else b) := hbm
      rw [hbb] at hbm'
      obtain ⟨b0, hb0mem, hb0eq⟩ := List.mem_map.mp hbm'
      have := h3 b0 hb0mem
      rw [← hb0eq]
      by_cases hbk' : b0.id ∈ ks <;> simp [hbk'] <;> exact this

/-- `delete` preserves the store invariant: it only removes rows. -/
theorem storeInv_delete (db : DB) (k : Nat) (h : StoreInv db) :
    StoreInv (delete db k) := by
  rcases hfind : db.billing.find? (fun b => b.id == k) with _ | b
  · simp only [delete, hfind]
    exact h
  · simp only [delete, hfind]
    obtain ⟨h1, h2, h3⟩ := h
    refine ⟨?_, ?_, ?_⟩
    · exact List.Nodup.sublist
        (List.Sublist.map _ (List.filter_sublist db.billing)) h1
    · exact List.Nodup.sublist
        (List.Sublist.map _ (List.filter_sublist db.billing)) h2
    · intro b' hb'
      exact h3 b' (List.mem_of_mem_filter hb')

/-! ### C8 -/

/-- C8: bill identifier uniqueness is a global invariant over all persisted
bills regardless of status — every lifecycle operation preserves the store
invariant (distinct keys below the counter and distinct identifiers, the
latter backed by the `billing.bill_id UNIQUE` schema constraint).  The
auto-generated identifier is the fixed `ST` prefix plus the parsed numeric
suffix of the last issued identifier plus one, starting at 1 on absence or
parse failure; a committed create's identifier never collides with any
stored bill (a colliding insert aborts with no mutation); successful
auto-mode creates issue `ST(nextAutoNum)` and leave the allocator at the
successor, so sequential auto-mode identifiers strictly increase and never
collide; and a manually supplied duplicate identifier is rejected with
`DuplicateIdentifier` before any mutation. -/
theorem c8_identifier_allocation :
    (∀ (db : DB) (req : CreateReq), StoreInv db → StoreInv (create db req).1) ∧
    (∀ (db : DB) (k : Nat) (req : UpdateReq), StoreInv db →
      StoreInv (update db k req).1) ∧
    (∀ (db : DB) (ks : List Nat), StoreInv db →
      StoreInv (cancel_bills db ks)) ∧
    (∀ (db : DB) (k : Nat), StoreInv db → StoreInv (delete db k)) ∧
    (∀ (db : DB) (b : BillRow) (n : Int), lastBill db = some b →
      b.bill_id = "ST" ++ intRepr n → nextAutoNum db = n + 1) ∧
    (∀ db : DB, lastBill db = none → nextAutoNum db = 1) ∧
    (∀ (db : DB) (b : BillRow), lastBill db = some b → b.bill_id ≠ "" →
      intLit? (dropChars b.bill_id 2) = none → nextAutoNum db = 1) ∧
    (∀ (db : DB) (req : CreateReq) (bill : BillRow) (rows : List ItemRow),
      (create db req).2 = .ok bill rows →
      ∀ b ∈ db.billing, b.bill_id ≠ bill.bill_id) ∧
    (∀ (db : DB) (req : CreateReq) (bill : BillRow) (rows : List ItemRow),
      StoreInv db → (req.bill_id_mode = "auto" ∨ pyStrip req.bill_id = "") →
      (create db req).2 = .ok bill rows →
      bill.bill_id = "ST" ++ intRepr (nextAutoNum db) ∧
      nextAutoNum (create db req).1 = nextAutoNum db + 1) ∧
    (∀ (db : DB) (req : CreateReq), req.bill_id_mode ≠ "auto" →
      pyStrip req.bill_id ≠ "" →
      (∃ b ∈ db.billing, b.bill_id = pyStrip req.bill_id) →
      create db req = (db, .duplicateIdentifier (pyStrip req.bill_id))) := by
  refine ⟨storeInv_create, storeInv_update, storeInv_cancel, storeInv_delete,
    nextAutoNum_of_lastBill, nextAutoNum_of_empty, nextAutoNum_of_parse_failure,
    create_ok_fresh, ?_, ?_⟩
  · intro db req bill rows hinv hauto hok
    obtain ⟨hid, _, _, _, _, hbid, hfst⟩ := create_ok_spec db req bill rows hok
    have hbid' : bill.bill_id = "ST" ++ intRepr (nextAutoNum db) := by
      rw [hbid, if_pos hauto]
      rfl
    refine ⟨hbid', ?_⟩
    have hlast : lastBill (create db req).1 = some bill := by
      refine lastBill_append db.billing bill ?_ _ (by rw [hfst])
      intro b hb
      rw [hid]
      exact hinv.2.2 b hb
    exact nextAutoNum_of_lastBill _ bill (nextAutoNum db) hlast hbid'
  · intro db req hmode hstrip hdup
    have hcond : ¬ (req.bill_id_mode = "auto" ∨ pyStrip req.bill_id = "") ∧
        (db.billing.any (fun b => b.bill_id == pyStrip req.bill_id)) = true := by
      obtain ⟨b, hbm, hbe⟩ := hdup
      refine ⟨?_, List.any_eq_true.mpr ⟨b, hbm, by simp [hbe]⟩⟩
      rintro (h | h)
      exacts [hmode h, hstrip h]
    simp only [create, if_pos hcond]

/-- Store for the C8 witness: one bill `ST1` with key 1, counter at 2. -/
def c8wDb : DB :=
  ⟨[⟨1, "ST1", "1", "2024-01-01", 0, 0, 0, "Pending", ""⟩], [],
   [⟨1, "PROD0001", "Widget", 5, 1, 0⟩], 2, 1⟩

/-- C8 witness request: a manually supplied duplicate identifier `ST1`. -/
def c8wDup : CreateReq := ⟨"ST1", "manual", "1", "2024-01-01", "Pending", "",
  [⟨1, "Widget", 1, 1, 0, 1, 0, 0, 0, 0, 1⟩]⟩

/-- Concrete instances of C8: the invariant survives a cancel, the allocator
follows `ST1` with suffix 2, and the manual duplicate `ST1` is rejected
with `DuplicateIdentifier` and no mutation. -/
theorem c8_identifier_allocation_witness :
    StoreInv (cancel_bills c8wDb [1]) ∧
    nextAutoNum c8wDb = 2 ∧
    create c8wDb c8wDup = (c8wDb, .duplicateIdentifier "ST1") := by
  obtain ⟨-, -, hcan, -, hformula, -, -, -, -, hdup⟩ := c8_identifier_allocation
  refine ⟨hcan c8wDb [1] ⟨by decide, by decide, by decide⟩, ?_, ?_⟩
  · have := hformula c8wDb
      ⟨1, "ST1", "1", "2024-01-01", 0, 0, 0, "Pending", ""⟩ 1
      (by decide) (by decide)
    rw [this]
    decide
  · have := hdup c8wDb c8wDup (by decide) (by decide)
      ⟨⟨1, "ST1", "1", "2024-01-01", 0, 0, 0, "Pending", ""⟩, by decide, by decide⟩
    have hps : pyStrip c8wDup.bill_id = "ST1" := by decide
    rw [hps] at this
    exact this
